import Mathlib

/-!
# Verification of `audioM` (src/lib/audioMonad.js)

A shallow embedding of the audio monad's state machine.  JavaScript objects
are modelled by a reference-indexed heap (`World`): every plain record / map
object gets a numeric reference, so object identity ("same mapping instance",
"fresh shallow copy", "the table captured by a decode callback") is statable.
Opaque Web-Audio handles (gain nodes, panner nodes, buffer sources, decoded
audio buffers) are modelled by numeric ids; calls into the audio context are
recorded in an append-only action log.  Asynchronous `decodeAudioData` calls
are modelled by a list of scheduled decodes (each remembering the table
reference and identifier its callbacks captured), resolved later by
`fireDecode`.  The byte-level base64 transcoding feeds only the opaque decode
call, so payloads are carried as the raw substring after the first comma
(`data.split(',')[1]`), exactly what the source hands to the decoder;
a missing comma makes that substring `undefined` and the subsequent
`base64.length` access throw, modelled as a thrown result.
-/

namespace AudioM

/-- Lookup in a `Nat`-keyed association list (heap store). -/
def alGet {α : Type} : List (Nat × α) → Nat → Option α
  | [], _ => none
  | (k', v) :: rest, k => if k' = k then some v else alGet rest k

/-- Update every binding of a key in a `Nat`-keyed association list
(used only at keys that are present). -/
def alSet {α : Type} : List (Nat × α) → Nat → α → List (Nat × α)
  | [], _, _ => []
  | (k', v) :: rest, k, nv =>
      if k' = k then (k', nv) :: alSet rest k nv else (k', v) :: alSet rest k nv

/-- Lookup of a property in a JavaScript-object-like string-keyed record. -/
def sGet {α : Type} : List (String × α) → String → Option α
  | [], _ => none
  | (k', v) :: rest, k => if k' = k then some v else sGet rest k

/-- Update every binding of a key (helper for `sSet`). -/
def sUpd {α : Type} : List (String × α) → String → α → List (String × α)
  | [], _, _ => []
  | (k', v) :: rest, k, nv =>
      if k' = k then (k', nv) :: sUpd rest k nv else (k', v) :: sUpd rest k nv

/-- JavaScript property assignment `o[k] = v`: overwrite an existing key in
place, otherwise append the new binding at the end (insertion order). -/
def sSet {α : Type} (l : List (String × α)) (k : String) (v : α) :
    List (String × α) :=
  if (sGet l k).isSome then sUpd l k v else l ++ [(k, v)]

/-- JavaScript `delete o[k]`. -/
def sDel {α : Type} : List (String × α) → String → List (String × α)
  | [], _ => []
  | (k', v) :: rest, k => if k' = k then sDel rest k else (k', v) :: sDel rest k

@[simp] theorem alGet_nil {α : Type} (k : Nat) : alGet ([] : List (Nat × α)) k = none := rfl

@[simp] theorem alGet_cons {α : Type} (k' : Nat) (v : α) (rest : List (Nat × α)) (k : Nat) :
    alGet ((k', v) :: rest) k = if k' = k then some v else alGet rest k := rfl

theorem alGet_alSet_ne {α : Type} (l : List (Nat × α)) (k j : Nat) (v : α) (h : j ≠ k) :
    alGet (alSet l k v) j = alGet l j := by
  induction l with
  | nil => rfl
  | cons p rest ih =>
      obtain ⟨k', v'⟩ := p
      by_cases hk : k' = k
      · subst hk
        simp only [alSet, if_pos rfl, alGet, if_neg (h ∘ Eq.symm), ih]
      · simp only [alSet, if_neg hk, alGet, ih]

theorem alGet_alSet_self {α : Type} (l : List (Nat × α)) (k : Nat) (v : α) :
    alGet (alSet l k v) k = (alGet l k).map (fun _ => v) := by
  induction l with
  | nil => rfl
  | cons p rest ih =>
      obtain ⟨k', v'⟩ := p
      by_cases hk : k' = k
      · subst hk; simp [alSet, alGet]
      · simp only [alSet, if_neg hk, alGet, if_neg hk, ih]

@[simp] theorem sGet_nil {α : Type} (k : String) : sGet ([] : List (String × α)) k = none := rfl

@[simp] theorem sGet_cons {α : Type} (k' : String) (v : α) (rest : List (String × α)) (k : String) :
    sGet ((k', v) :: rest) k = if k' = k then some v else sGet rest k := rfl

theorem sGet_append {α : Type} (l₁ l₂ : List (String × α)) (k : String) :
    sGet (l₁ ++ l₂) k = ((sGet l₁ k).rec (sGet l₂ k) (fun v => some v) : Option α) := by
  induction l₁ with
  | nil => rfl
  | cons p rest ih =>
      obtain ⟨k', v'⟩ := p
      by_cases hk : k' = k <;> simp [sGet, hk, ih]

theorem sGet_sUpd_self {α : Type} (l : List (String × α)) (k : String) (v : α) :
    sGet (sUpd l k v) k = (sGet l k).map (fun _ => v) := by
  induction l with
  | nil => rfl
  | cons p rest ih =>
      obtain ⟨k', v'⟩ := p
      by_cases hk : k' = k
      · subst hk; simp [sUpd, sGet]
      · simp only [sUpd, if_neg hk, sGet, if_neg hk, ih]

theorem sGet_sUpd_ne {α : Type} (l : List (String × α)) (k j : String) (v : α) (h : j ≠ k) :
    sGet (sUpd l k v) j = sGet l j := by
  induction l with
  | nil => rfl
  | cons p rest ih =>
      obtain ⟨k', v'⟩ := p
      by_cases hk : k' = k
      · subst hk
        simp only [sUpd, if_pos rfl, sGet, if_neg (h ∘ Eq.symm), ih]
      · simp only [sUpd, if_neg hk, sGet, ih]

@[simp] theorem sGet_sSet_self {α : Type} (l : List (String × α)) (k : String) (v : α) :
    sGet (sSet l k v) k = some v := by
  unfold sSet
  by_cases h : (sGet l k).isSome
  · simp only [h, if_true]
    obtain ⟨w, hw⟩ := Option.isSome_iff_exists.mp h
    rw [sGet_sUpd_self, hw]; rfl
  · simp only [h]
    rw [if_neg (by simp [h]), sGet_append]
    have : sGet l k = none := Option.not_isSome_iff_eq_none.mp (by simpa using h)
    rw [this]; simp [sGet]

@[simp] theorem sGet_sSet_ne {α : Type} (l : List (String × α)) (k j : String) (v : α)
    (h : j ≠ k) : sGet (sSet l k v) j = sGet l j := by
  unfold sSet
  by_cases hs : (sGet l k).isSome
  · simp only [hs, if_true]
    exact sGet_sUpd_ne l k j v h
  · rw [if_neg (by simp [hs]), sGet_append]
    cases hg : sGet l j with
    | none => simp [sGet, if_neg (h ∘ Eq.symm)]
    | some w => simp

@[simp] theorem sGet_sDel_self {α : Type} (l : List (String × α)) (k : String) :
    sGet (sDel l k) k = none := by
  induction l with
  | nil => rfl
  | cons p rest ih =>
      obtain ⟨k', v'⟩ := p
      by_cases hk : k' = k <;> simp [sDel, hk, sGet, ih]

@[simp] theorem sGet_sDel_ne {α : Type} (l : List (String × α)) (k j : String) (h : j ≠ k) :
    sGet (sDel l k) j = sGet l j := by
  induction l with
  | nil => rfl
  | cons p rest ih =>
      obtain ⟨k', v'⟩ := p
      by_cases hk : k' = k
      · subst hk
        rw [sDel, if_pos rfl, ih, sGet, if_neg (h ∘ Eq.symm)]
      · simp only [sDel, if_neg hk, sGet, ih]

/-! ## The data model -/

/-- An entry of the buffer table (`state.audioBuffers[id]`): either one of the
two string markers of the source or an opaque decoded `AudioBuffer` handle. -/
inductive BufEntry where
  | pending
  | failed
  | handle (h : Nat)
deriving DecidableEq, Repr

/-- Buffer table contents: `audioBuffers` object, identifier to entry. -/
abbrev Table := List (String × BufEntry)

/-- `locations` object contents: location identifier to panner-node handle. -/
abbrev LocMap := List (String × Nat)

/-- `sources` object contents (legacy; copied by `cloneData`, never written). -/
abbrev SrcMap := List (String × Nat)

/-- `panners` object contents (legacy; read by `orient`/`cone`, never written). -/
abbrev PanMap := List (String × Nat)

/-- A top-level State record.  Sub-mapping fields hold heap references to the
mapping objects; `masterGain` holds an opaque gain-node handle (a leaf). -/
structure RecC where
  audioBuffers : Option Nat := none
  locations : Option Nat := none
  sources : Option Nat := none
  masterGain : Option Nat := none
  panners : Option Nat := none
deriving DecidableEq, Repr

instance : Inhabited RecC := ⟨{}⟩

/-- A call into the audio capability context, recorded in order. -/
inductive AudioAction where
  | createGain (node : Nat) (vol : Int)
  | connectDest (node : Nat)
  | createBufferSource (node : Nat)
  | setBuffer (node : Nat) (h : Nat)
  | connect (src : Nat) (dst : Nat)
  | start (node : Nat) (t : Int)
  | createPanner (node : Nat)
  | setPosition (node : Nat) (x y z : Int)
  | setPannerProp (node : Nat) (k : String) (v : Int)
  | listenerPosition (x y z : Int)
  | setOrientation (node : Nat) (x y z : Int)
  | callConeInner (node : Nat) (v : Int)
  | callConeOuter (node : Nat) (v : Int)
  | callConeOuterGain (node : Nat) (v : Int)
deriving DecidableEq, Repr

/-- A scheduled `decodeAudioData` call: the callbacks closed over the buffer
table object (`tableRef`) and identifier that were current at scheduling. -/
structure Decode where
  tableRef : Nat
  id : String
  payload : String
deriving DecidableEq, Repr

/-- The world: the object heap (one store per object shape), allocation
counters, the audio-context action log and the scheduled decodes. -/
structure World where
  recs : List (Nat × RecC) := []
  tables : List (Nat × Table) := []
  locmaps : List (Nat × LocMap) := []
  srcmaps : List (Nat × SrcMap) := []
  panmaps : List (Nat × PanMap) := []
  nextRef : Nat := 0
  nextNode : Nat := 0
  nextWid : Nat := 0
  log : List AudioAction := []
  pend : List Decode := []
deriving DecidableEq, Repr

/-! ## Heap primitives -/

/-- Read a State record (a dangling reference reads as the empty record;
operations are only ever applied to live references). -/
def recOf (w : World) (r : Nat) : RecC := (alGet w.recs r).getD {}

/-- Read a buffer-table object. -/
def tableOf (w : World) (t : Nat) : Table := (alGet w.tables t).getD []

/-- Read a `locations` object. -/
def locmapOf (w : World) (t : Nat) : LocMap := (alGet w.locmaps t).getD []

/-- Read a `sources` object. -/
def srcmapOf (w : World) (t : Nat) : SrcMap := (alGet w.srcmaps t).getD []

/-- Read a `panners` object. -/
def panmapOf (w : World) (t : Nat) : PanMap := (alGet w.panmaps t).getD []

/-- Allocate a fresh State record object. -/
def allocRec (w : World) (rc : RecC) : World × Nat :=
  ({ w with recs := (w.nextRef, rc) :: w.recs, nextRef := w.nextRef + 1 }, w.nextRef)

/-- Allocate a fresh buffer-table object. -/
def allocTable (w : World) (t : Table) : World × Nat :=
  ({ w with tables := (w.nextRef, t) :: w.tables, nextRef := w.nextRef + 1 }, w.nextRef)

/-- Allocate a fresh `locations` object. -/
def allocLoc (w : World) (m : LocMap) : World × Nat :=
  ({ w with locmaps := (w.nextRef, m) :: w.locmaps, nextRef := w.nextRef + 1 }, w.nextRef)

/-- Allocate a fresh `sources` object. -/
def allocSrc (w : World) (m : SrcMap) : World × Nat :=
  ({ w with srcmaps := (w.nextRef, m) :: w.srcmaps, nextRef := w.nextRef + 1 }, w.nextRef)

/-- Overwrite a live State record object (property assignment on a record). -/
def setRec (w : World) (r : Nat) (rc : RecC) : World :=
  { w with recs := alSet w.recs r rc }

/-- Overwrite a live buffer-table object (in-place write into the mapping). -/
def setTable (w : World) (t : Nat) (tb : Table) : World :=
  { w with tables := alSet w.tables t tb }

/-- Overwrite a live `locations` object. -/
def setLoc (w : World) (t : Nat) (m : LocMap) : World :=
  { w with locmaps := alSet w.locmaps t m }

/-- Record a call into the audio context. -/
def emit (w : World) (a : AudioAction) : World :=
  { w with log := w.log ++ [a] }

/-- Create a fresh opaque audio-node handle. -/
def newNode (w : World) : World × Nat :=
  ({ w with nextNode := w.nextNode + 1 }, w.nextNode)

/-- Schedule an asynchronous `decodeAudioData` call. -/
def schedule (w : World) (d : Decode) : World :=
  { w with pend := w.pend ++ [d] }

/-! ## `cloneData` and the registered operations

Optional numeric arguments are `Option Int` (`none` = the argument was not
passed, i.e. `undefined`); the source's `x || d` default is `jsOr`. -/

/-- JavaScript `x || d` on an optional numeric argument (`undefined` and `0`
are falsy). -/
def jsOr (o : Option Int) (d : Int) : Int :=
  match o with
  | none => d
  | some v => if v = 0 then d else v

/-- JavaScript truthiness of an optional string argument (`undefined` and the
empty string are falsy). -/
def strTruthy (o : Option String) : Option String :=
  match o with
  | none => none
  | some s => if s = "" then none else some s

/-- The characters between the first and the second comma, when a first
comma exists. -/
def afterFirstComma : List Char → Option (List Char)
  | [] => none
  | c :: rest =>
      if c = ',' then some (rest.takeWhile (fun d => !(d = ',')))
      else afterFirstComma rest

/-- `data.split(',')[1]`: the segment between the first and second comma, or
`undefined` (`none`) when the payload has no comma. -/
def splitPayload (data : String) : Option String :=
  (afterFirstComma data.data).map (fun cs => String.mk cs)

/-- `shallowCopy` of an optional sub-mapping during `cloneData`: a present
mapping is copied into a freshly allocated object with the same contents. -/
def copyOptTable (w : World) (o : Option Nat) : World × Option Nat :=
  match o with
  | none => (w, none)
  | some t => let p := allocTable w (tableOf w t); (p.1, some p.2)

/-- `shallowCopy` of an optional `locations` mapping. -/
def copyOptLoc (w : World) (o : Option Nat) : World × Option Nat :=
  match o with
  | none => (w, none)
  | some t => let p := allocLoc w (locmapOf w t); (p.1, some p.2)

/-- `shallowCopy` of an optional `sources` mapping. -/
def copyOptSrc (w : World) (o : Option Nat) : World × Option Nat :=
  match o with
  | none => (w, none)
  | some t => let p := allocSrc w (srcmapOf w t); (p.1, some p.2)

/-- The body of `cloneData` on the already-read record value `rc`. -/
def cloneRec (w : World) (rc : RecC) : World × Nat :=
  let a := allocRec w {}
  let bl := copyOptLoc a.1 rc.locations
  let bs := copyOptSrc bl.1 rc.sources
  let bt := copyOptTable bs.1 rc.audioBuffers
  (setRec bt.1 a.2
    { locations := bl.2, sources := bs.2, masterGain := rc.masterGain,
      audioBuffers := bt.2, panners := none }, a.2)

/-- `cloneData(data)`: a fresh top-level record; `locations`, `sources` and
`audioBuffers` become fresh shallow copies, `masterGain` is carried by
reference, and any `panners` field is dropped (not copied). -/
def cloneData (w : World) (r : Nat) : World × Nat :=
  cloneRec w (recOf w r)

/-- Result of a registered operation: state-transforming lifts return the new
record reference; the `lift_value` accessor returns a raw buffer-table
reference. -/
inductive OpRet where
  | ref (r : Nat)
  | table (t : Nat)
deriving DecidableEq, Repr

/-- `createGain(volume)`: `gain.gain.value = volume || 1`. -/
def createGainCtx (w : World) (vol : Option Int) : World × Nat :=
  let p := newNode w
  (emit p.1 (.createGain p.2 (jsOr vol 1)), p.2)

/-- `createMasterGain(volume)`: a gain connected to the destination. -/
def createMasterGainCtx (w : World) (vol : Option Int) : World × Nat :=
  let p := createGainCtx w vol
  (emit p.1 (.connectDest p.2), p.2)

/-- `setAudioBuffers(value, buffers)`: clone, then replace `audioBuffers` with
a fresh shallow copy of the supplied mapping. -/
def setAudioBuffers (w : World) (r : Nat) (buffers : Table) : World × Option OpRet :=
  let c := cloneData w r
  let a := allocTable c.1 buffers
  (setRec a.1 c.2 { recOf a.1 c.2 with audioBuffers := some a.2 }, some (.ref c.2))

/-- `getAudioBuffers(value)` (registered via `lift_value`): a fresh empty
mapping, replaced by a fresh shallow copy when a buffer table exists. -/
def getAudioBuffers (w : World) (r : Nat) : World × Option OpRet :=
  let e := allocTable w []
  match (recOf e.1 r).audioBuffers with
  | some tb => let c := allocTable e.1 (tableOf e.1 tb); (c.1, some (.table c.2))
  | none => (e.1, some (.table e.2))

/-- `masterGain(value, initialVolume)`. -/
def masterGain (w : World) (r : Nat) (vol : Option Int) : World × Option OpRet :=
  let c := cloneData w r
  let g := createMasterGainCtx c.1 vol
  (setRec g.1 c.2 { recOf g.1 c.2 with masterGain := some g.2 }, some (.ref c.2))

/-- The lazy master-gain step of `play`: when the state has no master gain,
clone it, create a connected master gain and store it on the clone. -/
def playGainStep (w : World) (r : Nat) : World × Nat :=
  if (recOf w r).masterGain = none then
    let c := cloneData w r
    let g := createMasterGainCtx c.1 none
    (setRec g.1 c.2 { recOf g.1 c.2 with masterGain := some g.2 }, c.2)
  else (w, r)

/-- The routing condition of `play`:
`location && value.locations && value.locations[location]`. -/
def pannerFor (w : World) (rc : RecC) (loc : Option String) : Option Nat :=
  match strTruthy loc with
  | some l =>
    match rc.locations with
    | some lr => sGet (locmapOf w lr) l
    | none => none
  | none => none

/-- The routing step of `play`: through the named location's panner when one
exists (also re-connecting the panner to the master gain), else directly to
the master gain. -/
def playRoute (w : World) (s mg : Nat) (rc : RecC) (loc : Option String) : World :=
  match pannerFor w rc loc with
  | some p => emit (emit w (.connect s p)) (.connect p mg)
  | none => emit w (.connect s mg)

/-- The playback tail of `play` after the lazy-gain step: create the source,
set its buffer, route it, start it. -/
def playCore (q : World × Nat) (hnd : Nat) (loc : Option String) : World × Option OpRet :=
  let rc := recOf q.1 q.2
  let s := newNode q.1
  let w3 := emit (emit s.1 (.createBufferSource s.2)) (.setBuffer s.2 hnd)
  -- value.masterGain is always set on this path
  let w4 := playRoute w3 s.2 (rc.masterGain.getD 0) rc loc
  (emit w4 (.start s.2 0), some (.ref q.2))

/-- `play(value, id, location)`. -/
def play (w : World) (r : Nat) (id : String) (loc : Option String) : World × Option OpRet :=
  let buffer := (recOf w r).audioBuffers.bind (fun tb => sGet (tableOf w tb) id)
  match buffer with
  | some (.handle h) => playCore (playGainStep w r) h loc
  | _ => (w, some (.ref r))

/-- `removeSound(value, id)`. -/
def removeSound (w : World) (r : Nat) (id : String) : World × Option OpRet :=
  let c := cloneData w r
  match (recOf c.1 c.2).audioBuffers with
  | some tb => (setTable c.1 tb (sDel (tableOf c.1 tb) id), some (.ref c.2))
  | none => (c.1, some (.ref c.2))

/-- The per-sound body of the `sounds` loop: mark `pending`, then schedule
the decode; a comma-less payload throws inside `base64ToArrayBuffer`
(the `false` flag), aborting the loop. -/
def soundsLoop (w : World) (tb : Nat) : List (String × String) → World × Bool
  | [] => (w, true)
  | (k, data) :: rest =>
    let w1 := setTable w tb (sSet (tableOf w tb) k .pending)
    match splitPayload data with
    | none => (w1, false)
    | some p => soundsLoop (schedule w1 ⟨tb, k, p⟩) tb rest

/-- Table selection of `sounds`: the clone's buffer table when it has one,
else a fresh empty mapping (stored into the record only after the loop). -/
def soundsTable (w : World) (r' : Nat) : World × Nat :=
  match (recOf w r').audioBuffers with
  | some tb => (w, tb)
  | none => allocTable w []

/-- `sounds(value, sounds)`: clone; use the clone's buffer table or a fresh
empty one; mark each entry `pending` and schedule its decode; finally store
the table into the clone's `audioBuffers` field. -/
def sounds (w : World) (r : Nat) (m : List (String × String)) : World × Option OpRet :=
  let c := cloneData w r
  let q := soundsTable c.1 c.2
  let f := soundsLoop q.1 q.2 m
  if f.2 then
    (setRec f.1 c.2 { recOf f.1 c.2 with audioBuffers := some q.2 }, some (.ref c.2))
  else (f.1, none)

/-- `addSound(value, id, data)`: clone, then write `pending` into the clone's
buffer table.  When the clone has no `audioBuffers` mapping the property
write on `undefined` throws (`none` result); unlike `sounds` there is no
guard creating a fresh table. -/
def addSound (w : World) (r : Nat) (id : String) (data : String) : World × Option OpRet :=
  let c := cloneData w r
  match (recOf c.1 c.2).audioBuffers with
  | none => (c.1, none)
  | some tb =>
    let w2 := setTable c.1 tb (sSet (tableOf c.1 tb) id .pending)
    match splitPayload data with
    | none => (w2, none)
    | some p => (schedule w2 ⟨tb, id, p⟩, some (.ref c.2))

/-- `if (!value.locations) value.locations = {}` on the clone. -/
def locateEnsureMap (w : World) (r' : Nat) : World × Nat :=
  match (recOf w r').locations with
  | some lr => (w, lr)
  | none =>
    let a := allocLoc w []
    (setRec a.1 r' { recOf a.1 r' with locations := some a.2 }, a.2)

/-- `if (!value.locations[id]) value.locations[id] = createPanner()`. -/
def locateEnsurePanner (w : World) (lr : Nat) (id : String) : World × Nat :=
  match sGet (locmapOf w lr) id with
  | some p => (w, p)
  | none =>
    let n := newNode w
    let wn := emit n.1 (.createPanner n.2)
    (setLoc wn lr (sSet (locmapOf wn lr) id n.2), n.2)

/-- The option-override loop of `locate`: each named option is assigned onto
the panner handle. -/
def locateOpts (w : World) (p : Nat) : Option (List (String × Int)) → World
  | none => w
  | some os => os.foldl (fun ww kv => emit ww (.setPannerProp p kv.1 kv.2)) w

/-- `locate(value, id, x, y, z, options)`. -/
def locate (w : World) (r : Nat) (id : String) (x y z : Option Int)
    (opts : Option (List (String × Int))) : World × Option OpRet :=
  let c := cloneData w r
  let q := locateEnsureMap c.1 c.2
  let pq := locateEnsurePanner q.1 q.2 id
  let w4 := emit pq.1 (.setPosition pq.2 (jsOr x 0) (jsOr y 0) (jsOr z 0))
  (locateOpts w4 pq.2 opts, some (.ref c.2))

/-- `removeLocation(value, id)`. -/
def removeLocation (w : World) (r : Nat) (id : String) : World × Option OpRet :=
  let c := cloneData w r
  match (recOf c.1 c.2).locations with
  | some lr => (setLoc c.1 lr (sDel (locmapOf c.1 lr) id), some (.ref c.2))
  | none => (c.1, some (.ref c.2))

/-- `listenAt(value, x, y, z)`: mutates the shared listener only. -/
def listenAt (w : World) (r : Nat) (x y z : Option Int) : World × Option OpRet :=
  (emit w (.listenerPosition (jsOr x 0) (jsOr y 0) (jsOr z 0)), some (.ref r))

/-- `orient(value, id, x, y, z)`: reads the never-populated `panners` field. -/
def orient (w : World) (r : Nat) (id : String) (x y z : Option Int) : World × Option OpRet :=
  match (recOf w r).panners with
  | some pm =>
    match sGet (panmapOf w pm) id with
    | some p => (emit w (.setOrientation p (jsOr x 0) (jsOr y 0) (jsOr z 0)), some (.ref r))
    | none => (w, some (.ref r))
  | none => (w, some (.ref r))

/-- `cone(value, id, innerAngle, outerAngle, outerGain)`: also guarded by the
never-populated `panners` field (were it reached, the attempted
`coneInnerAngle(...)` calls are recorded as actions). -/
def cone (w : World) (r : Nat) (id : String) (inner outer gain : Option Int) :
    World × Option OpRet :=
  match (recOf w r).panners with
  | some pm =>
    match sGet (panmapOf w pm) id with
    | some p =>
      if id ≠ "listener" then
        (emit (emit (emit w (.callConeInner p (jsOr inner 360)))
          (.callConeOuter p (jsOr outer 360))) (.callConeOuterGain p (jsOr gain 0)),
         some (.ref r))
      else (w, some (.ref r))
    | none => (w, some (.ref r))
  | none => (w, some (.ref r))

/-- One registered operation call with its arguments. -/
inductive OpCall where
  | setAudioBuffers (buffers : Table)
  | getAudioBuffers
  | masterGain (vol : Option Int)
  | play (id : String) (loc : Option String)
  | removeSound (id : String)
  | sounds (m : List (String × String))
  | addSound (id : String) (data : String)
  | locate (id : String) (x y z : Option Int) (opts : Option (List (String × Int)))
  | removeLocation (id : String)
  | listenAt (x y z : Option Int)
  | orient (id : String) (x y z : Option Int)
  | cone (id : String) (inner outer gain : Option Int)
deriving DecidableEq, Repr

/-- Dispatch a registered operation on a state record.  A `none` result is a
thrown JavaScript exception (the world keeps the writes made before the
throw). -/
def applyOp (w : World) (r : Nat) : OpCall → World × Option OpRet
  | .setAudioBuffers buffers => setAudioBuffers w r buffers
  | .getAudioBuffers => getAudioBuffers w r
  | .masterGain vol => masterGain w r vol
  | .play id loc => play w r id loc
  | .removeSound id => removeSound w r id
  | .sounds m => sounds w r m
  | .addSound id data => addSound w r id data
  | .locate id x y z opts => locate w r id x y z opts
  | .removeLocation id => removeLocation w r id
  | .listenAt x y z => listenAt w r x y z
  | .orient id x y z => orient w r id x y z
  | .cone id inner outer gain => cone w r id inner outer gain

/-- Outcome reported by the decode capability. -/
inductive DecOutcome where
  | ok (h : Nat)
  | err
deriving DecidableEq, Repr

/-- The table entry a decode callback writes. -/
def outcomeEntry : DecOutcome → BufEntry
  | .ok h => .handle h
  | .err => .failed

/-- Fire the callbacks of a scheduled decode: write the outcome into the
buffer-table object captured at scheduling time. -/
def fireDecode (w : World) (d : Decode) (o : DecOutcome) : World :=
  match alGet w.tables d.tableRef with
  | some tb => setTable w d.tableRef (sSet tb d.id (outcomeEntry o))
  | none => w

/-! ## The wrapper layer (monad.js plus the audio modifier) -/

/-- A wrapper ("monad") instance.  `wid` is its object identity; `ctx` is the
truthiness of the shared `audioContext` captured at construction; `disabled`
records whether the modifier replaced `bind` by the return-self function;
`valRef` is the wrapped state record (`none` for a falsy value). -/
structure Wrapper where
  wid : Nat
  ctx : Bool
  disabled : Bool
  valRef : Option Nat
deriving DecidableEq, Repr

/-- The audio unit constructor: the modifier disables `bind` when there is no
audio context or no (truthy) value. -/
def mkWrapper (ctx : Bool) (v : Option Nat) (wid : Nat) : Wrapper :=
  { wid := wid, ctx := ctx, disabled := !ctx || v.isNone, valRef := v }

/-- Result of invoking a registered method on a wrapper. -/
inductive CallRet where
  | wrap (wr : Wrapper)
  | raw (t : Nat)
  | thrown
deriving DecidableEq, Repr

/-- Invoke one registered method on a wrapper: a disabled wrapper's `bind`
ignores the function and returns the wrapper itself (so `lift` methods
return it unchanged and the `lift_value` accessor returns it raw); an
enabled wrapper binds the operation and, for `lift` methods, re-wraps the
resulting record via the unit constructor. -/
def callOp (w : World) (wr : Wrapper) (c : OpCall) : World × CallRet :=
  if wr.disabled then (w, .wrap wr)
  else
    match wr.valRef with
    | none => (w, .thrown)   -- unreachable: an enabled wrapper holds a value
    | some r =>
      match applyOp w r c with
      | (w', none) => (w', .thrown)
      | (w', some (.table t)) => (w', .raw t)
      | (w', some (.ref r')) =>
        ({ w' with nextWid := w'.nextWid + 1 },
         .wrap (mkWrapper wr.ctx (some r') w'.nextWid))

/-- Run a chain of registered method calls, threading the wrapper; a raw or
thrown result ends the chain. -/
def runChain (w : World) (wr : Wrapper) : List OpCall → World × CallRet
  | [] => (w, .wrap wr)
  | c :: cs =>
    match callOp w wr c with
    | (w', .wrap wr') => runChain w' wr' cs
    | (w', res) => (w', res)

/-! ## Heap preservation: old objects are never written

Every registered operation writes only into freshly allocated objects; the
contents of every object that existed before the call are untouched. -/

/-- All five stores read at one reference. -/
def storesAt (w : World) (k : Nat) :
    Option RecC × Option Table × Option LocMap × Option SrcMap × Option PanMap :=
  (alGet w.recs k, alGet w.tables k, alGet w.locmaps k, alGet w.srcmaps k, alGet w.panmaps k)

/-- `w'` extends `w0`: allocation only moved forward and every object live in
`w0` has unchanged contents in `w'`. -/
def ExtFrom (w0 w' : World) : Prop :=
  w0.nextRef ≤ w'.nextRef ∧ ∀ k, k < w0.nextRef → storesAt w' k = storesAt w0 k

theorem extFrom_rfl (w : World) : ExtFrom w w := ⟨le_rfl, fun _ _ => rfl⟩

theorem extFrom_trans {w0 w1 w2 : World} (h1 : ExtFrom w0 w1) (h2 : ExtFrom w1 w2) :
    ExtFrom w0 w2 :=
  ⟨h1.1.trans h2.1, fun k hk => (h2.2 k (lt_of_lt_of_le hk h1.1)).trans (h1.2 k hk)⟩

theorem extFrom_allocRec {w0 w : World} (h : ExtFrom w0 w) (rc : RecC) :
    ExtFrom w0 (allocRec w rc).1 := by
  refine extFrom_trans h ⟨Nat.le_succ _, fun k hk => ?_⟩
  simp [allocRec, storesAt, Nat.ne_of_gt hk]

theorem extFrom_allocTable {w0 w : World} (h : ExtFrom w0 w) (t : Table) :
    ExtFrom w0 (allocTable w t).1 := by
  refine extFrom_trans h ⟨Nat.le_succ _, fun k hk => ?_⟩
  simp [allocTable, storesAt, Nat.ne_of_gt hk]

theorem extFrom_allocLoc {w0 w : World} (h : ExtFrom w0 w) (m : LocMap) :
    ExtFrom w0 (allocLoc w m).1 := by
  refine extFrom_trans h ⟨Nat.le_succ _, fun k hk => ?_⟩
  simp [allocLoc, storesAt, Nat.ne_of_gt hk]

theorem extFrom_allocSrc {w0 w : World} (h : ExtFrom w0 w) (m : SrcMap) :
    ExtFrom w0 (allocSrc w m).1 := by
  refine extFrom_trans h ⟨Nat.le_succ _, fun k hk => ?_⟩
  simp [allocSrc, storesAt, Nat.ne_of_gt hk]

theorem extFrom_setRec {w0 w : World} (h : ExtFrom w0 w) {t : Nat}
    (ht : w0.nextRef ≤ t) (rc : RecC) : ExtFrom w0 (setRec w t rc) := by
  refine ⟨h.1, fun k hk => ?_⟩
  have hne : k ≠ t := Nat.ne_of_lt (lt_of_lt_of_le hk ht)
  have := h.2 k hk
  simpa [setRec, storesAt, alGet_alSet_ne _ _ _ _ hne] using this

theorem extFrom_setTable {w0 w : World} (h : ExtFrom w0 w) {t : Nat}
    (ht : w0.nextRef ≤ t) (tb : Table) : ExtFrom w0 (setTable w t tb) := by
  refine ⟨h.1, fun k hk => ?_⟩
  have hne : k ≠ t := Nat.ne_of_lt (lt_of_lt_of_le hk ht)
  have := h.2 k hk
  simpa [setTable, storesAt, alGet_alSet_ne _ _ _ _ hne] using this

theorem extFrom_setLoc {w0 w : World} (h : ExtFrom w0 w) {t : Nat}
    (ht : w0.nextRef ≤ t) (m : LocMap) : ExtFrom w0 (setLoc w t m) := by
  refine ⟨h.1, fun k hk => ?_⟩
  have hne : k ≠ t := Nat.ne_of_lt (lt_of_lt_of_le hk ht)
  have := h.2 k hk
  simpa [setLoc, storesAt, alGet_alSet_ne _ _ _ _ hne] using this

theorem extFrom_emit {w0 w : World} (h : ExtFrom w0 w) (a : AudioAction) :
    ExtFrom w0 (emit w a) := by
  refine ⟨h.1, fun k hk => ?_⟩
  simpa [emit, storesAt] using h.2 k hk

theorem extFrom_newNode {w0 w : World} (h : ExtFrom w0 w) :
    ExtFrom w0 (newNode w).1 := by
  refine ⟨h.1, fun k hk => ?_⟩
  simpa [newNode, storesAt] using h.2 k hk

theorem extFrom_schedule {w0 w : World} (h : ExtFrom w0 w) (d : Decode) :
    ExtFrom w0 (schedule w d) := by
  refine ⟨h.1, fun k hk => ?_⟩
  simpa [schedule, storesAt] using h.2 k hk

theorem extFrom_copyOptLoc {w0 w : World} (h : ExtFrom w0 w) (o : Option Nat) :
    ExtFrom w0 (copyOptLoc w o).1 := by
  cases o with
  | none => exact h
  | some t => exact extFrom_allocLoc h _

theorem extFrom_copyOptSrc {w0 w : World} (h : ExtFrom w0 w) (o : Option Nat) :
    ExtFrom w0 (copyOptSrc w o).1 := by
  cases o with
  | none => exact h
  | some t => exact extFrom_allocSrc h _

theorem extFrom_copyOptTable {w0 w : World} (h : ExtFrom w0 w) (o : Option Nat) :
    ExtFrom w0 (copyOptTable w o).1 := by
  cases o with
  | none => exact h
  | some t => exact extFrom_allocTable h _

theorem copyOptLoc_nextRef {w : World} (o : Option Nat) :
    w.nextRef ≤ (copyOptLoc w o).1.nextRef := by
  cases o with
  | none => exact le_rfl
  | some t => exact Nat.le_succ _

theorem copyOptSrc_nextRef {w : World} (o : Option Nat) :
    w.nextRef ≤ (copyOptSrc w o).1.nextRef := by
  cases o with
  | none => exact le_rfl
  | some t => exact Nat.le_succ _

theorem copyOptTable_nextRef {w : World} (o : Option Nat) :
    w.nextRef ≤ (copyOptTable w o).1.nextRef := by
  cases o with
  | none => exact le_rfl
  | some t => exact Nat.le_succ _

/-- The record reference returned by `cloneData` is the next free one. -/
theorem cloneData_ref (w : World) (r : Nat) : (cloneData w r).2 = w.nextRef := rfl

theorem cloneData_ext (w : World) (r : Nat) : ExtFrom w (cloneData w r).1 := by
  simp only [cloneData, cloneRec]
  exact extFrom_setRec
    (extFrom_copyOptTable (extFrom_copyOptSrc (extFrom_copyOptLoc
      (extFrom_allocRec (extFrom_rfl w) _) _) _) _)
    le_rfl _

/-- The raw store lookups of the three copied sub-mapping shapes. -/
def tablesAt (w : World) (t : Nat) : Option Table := alGet w.tables t

/-- Raw `locations`-store lookup. -/
def locmapsAt (w : World) (t : Nat) : Option LocMap := alGet w.locmaps t

/-- Raw `sources`-store lookup. -/
def srcmapsAt (w : World) (t : Nat) : Option SrcMap := alGet w.srcmaps t

/-- A copied optional sub-mapping: both absent, or the copy is a fresh live
object (allocated by this clone, hence between the old and new allocation
frontier) holding exactly the contents the source object had (`A` is the
matching raw store lookup). -/
def OptCopy {γ : Type} (A : World → Nat → Option (List γ)) (w w' : World)
    (o o' : Option Nat) : Prop :=
  match o, o' with
  | none, none => True
  | some _, none => False
  | none, some _ => False
  | some t, some t' => w.nextRef ≤ t' ∧ t' < w'.nextRef ∧ A w' t' = some ((A w t).getD [])

/-- Full characterization of `cloneData`: a fresh record whose `masterGain`
leaf is shared, whose `panners` field is dropped, and whose three optional
sub-mappings are fresh shallow copies. -/
theorem cloneData_spec (w : World) (r : Nat) :
    (recOf (cloneData w r).1 (cloneData w r).2).masterGain = (recOf w r).masterGain ∧
    (recOf (cloneData w r).1 (cloneData w r).2).panners = none ∧
    OptCopy locmapsAt w (cloneData w r).1 (recOf w r).locations
      (recOf (cloneData w r).1 (cloneData w r).2).locations ∧
    OptCopy srcmapsAt w (cloneData w r).1 (recOf w r).sources
      (recOf (cloneData w r).1 (cloneData w r).2).sources ∧
    OptCopy tablesAt w (cloneData w r).1 (recOf w r).audioBuffers
      (recOf (cloneData w r).1 (cloneData w r).2).audioBuffers := by
  rcases h : recOf w r with ⟨ab, lo, so, mg, pa⟩
  simp only [cloneData, h]
  rcases lo with _ | lt <;> rcases so with _ | st <;> rcases ab with _ | tt <;>
  simp [cloneRec, copyOptLoc, copyOptSrc, copyOptTable, allocRec, allocTable,
    allocLoc, allocSrc, setRec, recOf, tableOf, locmapOf, srcmapOf, alGet, alSet,
    OptCopy, tablesAt, locmapsAt, srcmapsAt] <;>
  omega

theorem OptCopy.fresh_of_some {γ : Type} {A : World → Nat → Option (List γ)} {w w' : World}
    {o : Option Nat} {t' : Nat} (h : OptCopy A w w' o (some t')) : w.nextRef ≤ t' := by
  cases o with
  | none => simp [OptCopy] at h
  | some t => exact h.1

/-- The clone's buffer table, when present, is a freshly allocated object. -/
theorem cloneData_audioBuffers_fresh {w : World} {r tb : Nat}
    (h : (recOf (cloneData w r).1 (cloneData w r).2).audioBuffers = some tb) :
    w.nextRef ≤ tb := by
  have hs := (cloneData_spec w r).2.2.2.2
  rw [h] at hs
  exact OptCopy.fresh_of_some hs

/-- The clone's `locations` mapping, when present, is freshly allocated. -/
theorem cloneData_locations_fresh {w : World} {r lr : Nat}
    (h : (recOf (cloneData w r).1 (cloneData w r).2).locations = some lr) :
    w.nextRef ≤ lr := by
  have hs := (cloneData_spec w r).2.2.1
  rw [h] at hs
  exact OptCopy.fresh_of_some hs

/-- The clone's `sources` mapping, when present, is freshly allocated. -/
theorem cloneData_sources_fresh {w : World} {r sr : Nat}
    (h : (recOf (cloneData w r).1 (cloneData w r).2).sources = some sr) :
    w.nextRef ≤ sr := by
  have hs := (cloneData_spec w r).2.2.2.1
  rw [h] at hs
  exact OptCopy.fresh_of_some hs

theorem cloneData_ref_fresh (w : World) (r : Nat) : w.nextRef ≤ (cloneData w r).2 :=
  le_of_eq (cloneData_ref w r).symm

theorem extFrom_createMasterGain {w0 w : World} (h : ExtFrom w0 w) (vol : Option Int) :
    ExtFrom w0 (createMasterGainCtx w vol).1 := by
  unfold createMasterGainCtx createGainCtx
  exact extFrom_emit (extFrom_emit (extFrom_newNode h) _) _

theorem extFrom_setAudioBuffersOp (w : World) (r : Nat) (buffers : Table) :
    ExtFrom w (setAudioBuffers w r buffers).1 := by
  unfold setAudioBuffers
  exact extFrom_setRec (extFrom_allocTable (cloneData_ext w r) _)
    (cloneData_ref_fresh w r) _

theorem extFrom_getAudioBuffersOp (w : World) (r : Nat) :
    ExtFrom w (getAudioBuffers w r).1 := by
  unfold getAudioBuffers
  try dsimp only
  split
  · exact extFrom_allocTable (extFrom_allocTable (extFrom_rfl w) _) _
  · exact extFrom_allocTable (extFrom_rfl w) _

theorem extFrom_masterGainOp (w : World) (r : Nat) (vol : Option Int) :
    ExtFrom w (masterGain w r vol).1 := by
  unfold masterGain
  exact extFrom_setRec (extFrom_createMasterGain (cloneData_ext w r) _)
    (cloneData_ref_fresh w r) _

theorem extFrom_playGainStep (w : World) (r : Nat) : ExtFrom w (playGainStep w r).1 := by
  unfold playGainStep
  try dsimp only
  split
  · exact extFrom_setRec (extFrom_createMasterGain (cloneData_ext w r) _)
      (cloneData_ref_fresh w r) _
  · exact extFrom_rfl w

theorem extFrom_playRoute {w0 w : World} (h : ExtFrom w0 w) (s mg : Nat) (rc : RecC)
    (loc : Option String) : ExtFrom w0 (playRoute w s mg rc loc) := by
  unfold playRoute
  try dsimp only
  repeat' split
  all_goals first
    | exact extFrom_emit (extFrom_emit h _) _
    | exact extFrom_emit h _

theorem extFrom_playCore {w0 : World} (q : World × Nat) (hnd : Nat)
    (loc : Option String) (h : ExtFrom w0 q.1) : ExtFrom w0 (playCore q hnd loc).1 := by
  unfold playCore
  try dsimp only
  exact extFrom_emit (extFrom_playRoute (extFrom_emit (extFrom_emit
    (extFrom_newNode h) _) _) _ _ _ _) _

theorem extFrom_playOp (w : World) (r : Nat) (id : String) (loc : Option String) :
    ExtFrom w (play w r id loc).1 := by
  unfold play
  try dsimp only
  split
  · exact extFrom_playCore _ _ loc (extFrom_playGainStep w r)
  · exact extFrom_rfl w

theorem extFrom_removeSoundOp (w : World) (r : Nat) (id : String) :
    ExtFrom w (removeSound w r id).1 := by
  unfold removeSound
  try dsimp only
  split
  · rename_i tb hab
    exact extFrom_setTable (cloneData_ext w r) (cloneData_audioBuffers_fresh hab) _
  · exact cloneData_ext w r

theorem extFrom_soundsTable {w0 w : World} (h : ExtFrom w0 w) (r' : Nat) :
    ExtFrom w0 (soundsTable w r').1 := by
  unfold soundsTable
  try dsimp only
  split
  · exact h
  · exact extFrom_allocTable h _

theorem soundsTable_fresh (w : World) (r : Nat) :
    w.nextRef ≤ (soundsTable (cloneData w r).1 (cloneData w r).2).2 := by
  unfold soundsTable
  try dsimp only
  split
  · rename_i tb hab
    exact cloneData_audioBuffers_fresh hab
  · exact (cloneData_ext w r).1

theorem extFrom_soundsLoop {w0 : World} (tb : Nat) (htb : w0.nextRef ≤ tb) :
    ∀ (m : List (String × String)) (w : World),
      ExtFrom w0 w → ExtFrom w0 (soundsLoop w tb m).1
  | [], _, h => h
  | (k, data) :: rest, w, h => by
      unfold soundsLoop
      rcases splitPayload data with _ | p
      · exact extFrom_setTable h htb _
      · exact extFrom_soundsLoop tb htb rest _
          (extFrom_schedule (extFrom_setTable h htb _) _)

theorem extFrom_soundsOp (w : World) (r : Nat) (m : List (String × String)) :
    ExtFrom w (sounds w r m).1 := by
  unfold sounds
  have hq := extFrom_soundsTable (cloneData_ext w r) (cloneData w r).2
  have hf := extFrom_soundsLoop _ (soundsTable_fresh w r) m _ hq
  try dsimp only
  split
  · exact extFrom_setRec hf (cloneData_ref_fresh w r) _
  · exact hf

theorem extFrom_addSoundOp (w : World) (r : Nat) (id data : String) :
    ExtFrom w (addSound w r id data).1 := by
  unfold addSound
  try dsimp only
  split
  · exact cloneData_ext w r
  · rename_i tb hab
    have h2 := extFrom_setTable (cloneData_ext w r) (cloneData_audioBuffers_fresh hab)
      (sSet (tableOf (cloneData w r).1 tb) id .pending)
    split
    · exact h2
    · exact extFrom_schedule h2 _

theorem extFrom_locateEnsureMap {w0 : World} (w : World) (r' : Nat) (h : ExtFrom w0 w)
    (hr' : w0.nextRef ≤ r') : ExtFrom w0 (locateEnsureMap w r').1 := by
  unfold locateEnsureMap
  try dsimp only
  split
  · exact h
  · exact extFrom_setRec (extFrom_allocLoc h _) hr' _

theorem locateEnsureMap_fresh {w0 : World} (w : World) (r' : Nat) (h : ExtFrom w0 w)
    (hsome : ∀ lr, (recOf w r').locations = some lr → w0.nextRef ≤ lr) :
    w0.nextRef ≤ (locateEnsureMap w r').2 := by
  unfold locateEnsureMap
  try dsimp only
  split
  · rename_i lr hl
    exact hsome lr hl
  · exact h.1

theorem extFrom_locateEnsurePanner {w0 : World} (w : World) (lr : Nat) (id : String)
    (h : ExtFrom w0 w) (hlr : w0.nextRef ≤ lr) :
    ExtFrom w0 (locateEnsurePanner w lr id).1 := by
  unfold locateEnsurePanner
  try dsimp only
  split
  · exact h
  · exact extFrom_setLoc (extFrom_emit (extFrom_newNode h) _) hlr _

theorem extFrom_locateOpts {w0 : World} (w : World) (p : Nat)
    (opts : Option (List (String × Int))) (h : ExtFrom w0 w) :
    ExtFrom w0 (locateOpts w p opts) := by
  cases opts with
  | none => exact h
  | some os =>
      unfold locateOpts
      induction os generalizing w with
      | nil => exact h
      | cons kv rest ih =>
          simp only [List.foldl]
          exact ih _ (extFrom_emit h _)

theorem extFrom_locateOp (w : World) (r : Nat) (id : String) (x y z : Option Int)
    (opts : Option (List (String × Int))) : ExtFrom w (locate w r id x y z opts).1 := by
  unfold locate
  have hq := extFrom_locateEnsureMap (cloneData w r).1 (cloneData w r).2
    (cloneData_ext w r) (cloneData_ref_fresh w r)
  have hqf := locateEnsureMap_fresh (cloneData w r).1 (cloneData w r).2
    (cloneData_ext w r) (fun lr hl => cloneData_locations_fresh hl)
  exact extFrom_locateOpts _ _ _ (extFrom_emit
    (extFrom_locateEnsurePanner _ _ id hq hqf) _)

theorem extFrom_removeLocationOp (w : World) (r : Nat) (id : String) :
    ExtFrom w (removeLocation w r id).1 := by
  unfold removeLocation
  try dsimp only
  split
  · rename_i lr hl
    exact extFrom_setLoc (cloneData_ext w r) (cloneData_locations_fresh hl) _
  · exact cloneData_ext w r

theorem extFrom_listenAtOp (w : World) (r : Nat) (x y z : Option Int) :
    ExtFrom w (listenAt w r x y z).1 :=
  extFrom_emit (extFrom_rfl w) _

theorem extFrom_orientOp (w : World) (r : Nat) (id : String) (x y z : Option Int) :
    ExtFrom w (orient w r id x y z).1 := by
  unfold orient
  try dsimp only
  repeat' split
  all_goals first
    | exact extFrom_emit (extFrom_rfl w) _
    | exact extFrom_rfl w

theorem extFrom_coneOp (w : World) (r : Nat) (id : String) (inner outer gain : Option Int) :
    ExtFrom w (cone w r id inner outer gain).1 := by
  unfold cone
  try dsimp only
  repeat' split
  all_goals first
    | exact extFrom_emit (extFrom_emit (extFrom_emit (extFrom_rfl w) _) _) _
    | exact extFrom_rfl w

/-! Record-store preservation: most steps never touch the store of records. -/

@[simp] theorem recs_allocTable (w : World) (t : Table) : (allocTable w t).1.recs = w.recs := rfl

@[simp] theorem recs_allocLoc (w : World) (m : LocMap) : (allocLoc w m).1.recs = w.recs := rfl

@[simp] theorem recs_allocSrc (w : World) (m : SrcMap) : (allocSrc w m).1.recs = w.recs := rfl

@[simp] theorem recs_emit (w : World) (a : AudioAction) : (emit w a).recs = w.recs := rfl

@[simp] theorem recs_newNode (w : World) : (newNode w).1.recs = w.recs := rfl

@[simp] theorem recs_schedule (w : World) (d : Decode) : (schedule w d).recs = w.recs := rfl

@[simp] theorem recs_setTable (w : World) (t : Nat) (tb : Table) :
    (setTable w t tb).recs = w.recs := rfl

@[simp] theorem recs_setLoc (w : World) (t : Nat) (m : LocMap) :
    (setLoc w t m).recs = w.recs := rfl

@[simp] theorem recs_createMasterGain (w : World) (vol : Option Int) :
    (createMasterGainCtx w vol).1.recs = w.recs := rfl

theorem recs_soundsLoop (tb : Nat) :
    ∀ (m : List (String × String)) (w : World), (soundsLoop w tb m).1.recs = w.recs
  | [], _ => rfl
  | (k, data) :: rest, w => by
      unfold soundsLoop
      rcases splitPayload data with _ | p
      · rfl
      · exact recs_soundsLoop tb rest _

theorem recs_playRoute (w : World) (s mg : Nat) (rc : RecC) (loc : Option String) :
    (playRoute w s mg rc loc).recs = w.recs := by
  unfold playRoute
  repeat' split
  all_goals rfl

theorem recs_playCore (q : World × Nat) (hnd : Nat) (loc : Option String) :
    (playCore q hnd loc).1.recs = q.1.recs := by
  unfold playCore
  try dsimp only
  rw [recs_emit, recs_playRoute, recs_emit, recs_emit, recs_newNode]

theorem recs_locateOpts (w : World) (p : Nat) (opts : Option (List (String × Int))) :
    (locateOpts w p opts).recs = w.recs := by
  cases opts with
  | none => rfl
  | some os =>
      unfold locateOpts
      induction os generalizing w with
      | nil => rfl
      | cons kv rest ih => simpa only [List.foldl] using ih _

theorem recs_locateEnsurePanner (w : World) (lr : Nat) (id : String) :
    (locateEnsurePanner w lr id).1.recs = w.recs := by
  unfold locateEnsurePanner
  split <;> rfl

theorem recs_soundsTable (w : World) (r' : Nat) :
    (soundsTable w r').1.recs = w.recs := by
  unfold soundsTable
  split <;> rfl

/-- Reading back a just-written live record. -/
theorem recOf_setRec_self {w : World} {t : Nat} (rc : RecC)
    (h : (alGet w.recs t).isSome) : recOf (setRec w t rc) t = rc := by
  unfold recOf setRec
  simp only [alGet_alSet_self]
  obtain ⟨v, hv⟩ := Option.isSome_iff_exists.mp h
  rw [hv]; rfl

@[simp] theorem copyOptLoc_recs (w : World) (o : Option Nat) :
    (copyOptLoc w o).1.recs = w.recs := by cases o <;> rfl

@[simp] theorem copyOptSrc_recs (w : World) (o : Option Nat) :
    (copyOptSrc w o).1.recs = w.recs := by cases o <;> rfl

@[simp] theorem copyOptTable_recs (w : World) (o : Option Nat) :
    (copyOptTable w o).1.recs = w.recs := by cases o <;> rfl

/-- The clone's record reference is live in the clone's heap. -/
theorem cloneData_live (w : World) (r : Nat) :
    (alGet (cloneData w r).1.recs (cloneData w r).2).isSome := by
  simp only [cloneData, cloneRec, setRec, copyOptTable_recs, copyOptSrc_recs,
    copyOptLoc_recs, allocRec, alGet_alSet_self]
  simp [alGet]

/-- The record `r'` of `w'` is a fresh object relative to `w0`, and so are
all its sub-mappings. -/
def FreshRec (w0 w' : World) (r' : Nat) : Prop :=
  w0.nextRef ≤ r' ∧
  (∀ t, (recOf w' r').audioBuffers = some t → w0.nextRef ≤ t) ∧
  (∀ t, (recOf w' r').locations = some t → w0.nextRef ≤ t) ∧
  (∀ t, (recOf w' r').sources = some t → w0.nextRef ≤ t)

theorem freshRec_recs_eq {w0 w1 w2 : World} {r' : Nat} (h : FreshRec w0 w1 r')
    (he : w2.recs = w1.recs) : FreshRec w0 w2 r' := by
  have hrec : recOf w2 r' = recOf w1 r' := by unfold recOf; rw [he]
  unfold FreshRec at h ⊢
  rw [hrec]
  exact h

theorem freshRec_setRec {w0 w : World} {r' : Nat} (rc : RecC)
    (hlive : (alGet w.recs r').isSome) (hr' : w0.nextRef ≤ r')
    (hab : ∀ t, rc.audioBuffers = some t → w0.nextRef ≤ t)
    (hlo : ∀ t, rc.locations = some t → w0.nextRef ≤ t)
    (hso : ∀ t, rc.sources = some t → w0.nextRef ≤ t) :
    FreshRec w0 (setRec w r' rc) r' := by
  refine ⟨hr', ?_, ?_, ?_⟩ <;> rw [recOf_setRec_self rc hlive] <;> assumption

theorem freshRec_cloneData (w : World) (r : Nat) :
    FreshRec w (cloneData w r).1 (cloneData w r).2 :=
  ⟨cloneData_ref_fresh w r, fun _ ht => cloneData_audioBuffers_fresh ht,
   fun _ ht => cloneData_locations_fresh ht, fun _ ht => cloneData_sources_fresh ht⟩

theorem OptCopy.isSome_iff {γ : Type} {A : World → Nat → Option (List γ)} {w w' : World}
    {o o' : Option Nat} (h : OptCopy A w w' o o') : o'.isSome = o.isSome := by
  cases o <;> cases o' <;> simp [OptCopy] at h ⊢

/-- The clone has a buffer table exactly when the input does. -/
theorem cloneData_audioBuffers_isSome (w : World) (r : Nat) :
    (recOf (cloneData w r).1 (cloneData w r).2).audioBuffers.isSome =
      (recOf w r).audioBuffers.isSome :=
  (cloneData_spec w r).2.2.2.2.isSome_iff

/-- No registered operation writes into any object that existed before the
call: old records and old sub-mappings read back unchanged. -/
theorem extFrom_applyOp (w : World) (r : Nat) (c : OpCall) :
    ExtFrom w (applyOp w r c).1 := by
  cases c with
  | setAudioBuffers buffers => exact extFrom_setAudioBuffersOp w r buffers
  | getAudioBuffers => exact extFrom_getAudioBuffersOp w r
  | masterGain vol => exact extFrom_masterGainOp w r vol
  | play id loc => exact extFrom_playOp w r id loc
  | removeSound id => exact extFrom_removeSoundOp w r id
  | sounds m => exact extFrom_soundsOp w r m
  | addSound id data => exact extFrom_addSoundOp w r id data
  | locate id x y z opts => exact extFrom_locateOp w r id x y z opts
  | removeLocation id => exact extFrom_removeLocationOp w r id
  | listenAt x y z => exact extFrom_listenAtOp w r x y z
  | orient id x y z => exact extFrom_orientOp w r id x y z
  | cone id inner outer gain => exact extFrom_coneOp w r id inner outer gain

/-! Freshness of the record returned by each documented cloning operation. -/

theorem setAudioBuffers_fresh (w : World) (r : Nat) (buffers : Table) :
    (setAudioBuffers w r buffers).2 = some (.ref (cloneData w r).2) ∧
    FreshRec w (setAudioBuffers w r buffers).1 (cloneData w r).2 := by
  refine ⟨rfl, ?_⟩
  unfold setAudioBuffers
  try dsimp only
  apply freshRec_setRec
  · simpa using cloneData_live w r
  · exact cloneData_ref_fresh w r
  · intro t ht
    simp only [allocTable, Option.some_inj] at ht
    subst ht
    exact (cloneData_ext w r).1
  · intro t ht
    exact cloneData_locations_fresh ht
  · intro t ht
    exact cloneData_sources_fresh ht

theorem masterGain_fresh (w : World) (r : Nat) (vol : Option Int) :
    (masterGain w r vol).2 = some (.ref (cloneData w r).2) ∧
    FreshRec w (masterGain w r vol).1 (cloneData w r).2 := by
  refine ⟨rfl, ?_⟩
  unfold masterGain
  try dsimp only
  apply freshRec_setRec
  · simpa using cloneData_live w r
  · exact cloneData_ref_fresh w r
  · intro t ht
    exact cloneData_audioBuffers_fresh ht
  · intro t ht
    exact cloneData_locations_fresh ht
  · intro t ht
    exact cloneData_sources_fresh ht

theorem removeSound_fresh (w : World) (r : Nat) (id : String) :
    (removeSound w r id).2 = some (.ref (cloneData w r).2) ∧
    FreshRec w (removeSound w r id).1 (cloneData w r).2 := by
  unfold removeSound
  try dsimp only
  split
  · exact ⟨rfl, freshRec_recs_eq (freshRec_cloneData w r) rfl⟩
  · exact ⟨rfl, freshRec_cloneData w r⟩

theorem soundsLoop_ok (tb : Nat) :
    ∀ (m : List (String × String)) (w : World),
      (∀ kv ∈ m, (splitPayload kv.2).isSome) → (soundsLoop w tb m).2 = true
  | [], _, _ => rfl
  | (k, data) :: rest, w, h => by
      unfold soundsLoop
      cases hp : splitPayload data with
      | none =>
          have := h (k, data) (by simp)
          rw [hp] at this
          simp at this
      | some p =>
          exact soundsLoop_ok tb rest _ (fun kv hkv => h kv (List.mem_cons_of_mem _ hkv))

theorem sounds_fresh (w : World) (r : Nat) (m : List (String × String))
    (hm : ∀ kv ∈ m, (splitPayload kv.2).isSome) :
    (sounds w r m).2 = some (.ref (cloneData w r).2) ∧
    FreshRec w (sounds w r m).1 (cloneData w r).2 := by
  unfold sounds
  try dsimp only
  rw [if_pos (soundsLoop_ok _ m _ hm)]
  refine ⟨rfl, ?_⟩
  have hrecs : (soundsLoop (soundsTable (cloneData w r).1 (cloneData w r).2).1
      (soundsTable (cloneData w r).1 (cloneData w r).2).2 m).1.recs =
      (cloneData w r).1.recs := by
    rw [recs_soundsLoop, recs_soundsTable]
  have hrec : recOf (soundsLoop (soundsTable (cloneData w r).1 (cloneData w r).2).1
      (soundsTable (cloneData w r).1 (cloneData w r).2).2 m).1 (cloneData w r).2 =
      recOf (cloneData w r).1 (cloneData w r).2 := by
    unfold recOf; rw [hrecs]
  apply freshRec_setRec
  · rw [hrecs]; exact cloneData_live w r
  · exact cloneData_ref_fresh w r
  · intro t ht
    simp only [Option.some_inj] at ht
    subst ht
    exact soundsTable_fresh w r
  · intro t ht
    rw [hrec] at ht
    exact cloneData_locations_fresh ht
  · intro t ht
    rw [hrec] at ht
    exact cloneData_sources_fresh ht

theorem addSound_fresh (w : World) (r : Nat) (id data : String)
    (hab : (recOf w r).audioBuffers.isSome) (hp : (splitPayload data).isSome) :
    (addSound w r id data).2 = some (.ref (cloneData w r).2) ∧
    FreshRec w (addSound w r id data).1 (cloneData w r).2 := by
  have hcl : (recOf (cloneData w r).1 (cloneData w r).2).audioBuffers.isSome := by
    rw [cloneData_audioBuffers_isSome]; exact hab
  unfold addSound
  try dsimp only
  split
  · rename_i hnone
    rw [hnone] at hcl
    simp at hcl
  · rename_i tb htb
    obtain ⟨p, hp'⟩ := Option.isSome_iff_exists.mp hp
    rw [hp']
    exact ⟨rfl, freshRec_recs_eq (freshRec_cloneData w r) rfl⟩

theorem locateEnsureMap_freshRec (w : World) (r : Nat) :
    FreshRec w (locateEnsureMap (cloneData w r).1 (cloneData w r).2).1 (cloneData w r).2 := by
  unfold locateEnsureMap
  try dsimp only
  split
  · exact freshRec_cloneData w r
  · apply freshRec_setRec
    · simpa using cloneData_live w r
    · exact cloneData_ref_fresh w r
    · intro t ht
      exact cloneData_audioBuffers_fresh ht
    · intro t ht
      simp only [allocLoc, Option.some_inj] at ht
      subst ht
      exact (cloneData_ext w r).1
    · intro t ht
      exact cloneData_sources_fresh ht

theorem locate_fresh (w : World) (r : Nat) (id : String) (x y z : Option Int)
    (opts : Option (List (String × Int))) :
    (locate w r id x y z opts).2 = some (.ref (cloneData w r).2) ∧
    FreshRec w (locate w r id x y z opts).1 (cloneData w r).2 := by
  refine ⟨rfl, ?_⟩
  unfold locate
  try dsimp only
  refine freshRec_recs_eq (locateEnsureMap_freshRec w r) ?_
  rw [recs_locateOpts, recs_emit, recs_locateEnsurePanner]

theorem removeLocation_fresh (w : World) (r : Nat) (id : String) :
    (removeLocation w r id).2 = some (.ref (cloneData w r).2) ∧
    FreshRec w (removeLocation w r id).1 (cloneData w r).2 := by
  unfold removeLocation
  try dsimp only
  split
  · exact ⟨rfl, freshRec_recs_eq (freshRec_cloneData w r) rfl⟩
  · exact ⟨rfl, freshRec_cloneData w r⟩

theorem play_fresh (w : World) (r : Nat) (id : String) (loc : Option String)
    (hmg : (recOf w r).masterGain = none) {hd : Nat}
    (hbuf : (recOf w r).audioBuffers.bind (fun tb => sGet (tableOf w tb) id) =
      some (.handle hd)) :
    (play w r id loc).2 = some (.ref (cloneData w r).2) ∧
    FreshRec w (play w r id loc).1 (cloneData w r).2 := by
  unfold play
  try dsimp only
  rw [hbuf]
  have hq : playGainStep w r = (setRec (createMasterGainCtx (cloneData w r).1 none).1
      (cloneData w r).2
      { recOf (createMasterGainCtx (cloneData w r).1 none).1 (cloneData w r).2 with
        masterGain := some (createMasterGainCtx (cloneData w r).1 none).2 },
      (cloneData w r).2) := by
    unfold playGainStep
    rw [if_pos hmg]
  rw [hq]
  constructor
  · rfl
  · have hfr : FreshRec w (setRec (createMasterGainCtx (cloneData w r).1 none).1
        (cloneData w r).2
        { recOf (createMasterGainCtx (cloneData w r).1 none).1 (cloneData w r).2 with
          masterGain := some (createMasterGainCtx (cloneData w r).1 none).2 })
        (cloneData w r).2 := by
      apply freshRec_setRec
      · simpa using cloneData_live w r
      · exact cloneData_ref_fresh w r
      · intro t ht
        exact cloneData_audioBuffers_fresh ht
      · intro t ht
        exact cloneData_locations_fresh ht
      · intro t ht
        exact cloneData_sources_fresh ht
    exact freshRec_recs_eq hfr (recs_playCore _ _ loc)

/-- The operations the spec documents as cloning, together with the
conditions under which the source actually reaches its clone-and-return path
(`addSound` needs an existing buffer table and a well-formed payload,
`sounds` needs well-formed payloads, `play` clones only when it lazily adds
a master gain, i.e. the gain is absent and the buffer is playable). -/
def IsCloningCall (w : World) (r : Nat) : OpCall → Prop
  | .setAudioBuffers _ => True
  | .masterGain _ => True
  | .removeSound _ => True
  | .removeLocation _ => True
  | .locate _ _ _ _ _ => True
  | .sounds m => ∀ kv ∈ m, (splitPayload kv.2).isSome
  | .addSound _ data => (recOf w r).audioBuffers.isSome ∧ (splitPayload data).isSome
  | .play id _ => (recOf w r).masterGain = none ∧
      ∃ hd, (recOf w r).audioBuffers.bind (fun tb => sGet (tableOf w tb) id) =
        some (.handle hd)
  | _ => False

theorem cloningCall_fresh (w : World) (r : Nat) (c : OpCall) (h : IsCloningCall w r c) :
    ∃ r', (applyOp w r c).2 = some (.ref r') ∧ FreshRec w (applyOp w r c).1 r' := by
  cases c with
  | setAudioBuffers buffers => exact ⟨_, setAudioBuffers_fresh w r buffers⟩
  | masterGain vol => exact ⟨_, masterGain_fresh w r vol⟩
  | removeSound id => exact ⟨_, removeSound_fresh w r id⟩
  | removeLocation id => exact ⟨_, removeLocation_fresh w r id⟩
  | locate id x y z opts => exact ⟨_, locate_fresh w r id x y z opts⟩
  | sounds m => exact ⟨_, sounds_fresh w r m h⟩
  | addSound id data => exact ⟨_, addSound_fresh w r id data h.1 h.2⟩
  | play id loc =>
      obtain ⟨hmg, hd, hbuf⟩ := h
      exact ⟨_, play_fresh w r id loc hmg hbuf⟩
  | getAudioBuffers => exact h.elim
  | listenAt x y z => exact h.elim
  | orient id x y z => exact h.elim
  | cone id inner outer gain => exact h.elim

/-- A concrete world holding one empty state record at reference `0`
(the shape produced by wrapping an initial `{}` value). -/
def wEx : World := (allocRec {} {}).1

/-- C1: structural immutability.  (1) Applying any registered operation
leaves every object live before the call — in particular the input state's
top-level record and all its sub-mappings — with unchanged contents.
(2) `cloneData` returns a fresh top-level record sharing the `masterGain`
leaf handle and carrying fresh shallow copies of the `locations`, `sources`
and `audioBuffers` sub-mappings (equal contents, new object).  (3) Every
operation documented as cloning (`setAudioBuffers`, `masterGain`,
`removeSound`, `sounds`, `addSound`, `locate`, `removeLocation`, and `play`
when it adds a master gain) returns a fresh top-level record whose
sub-mappings are all fresh objects. -/
theorem claim_C1_structural_immutability :
    (∀ (w : World) (r : Nat) (c : OpCall) (k : Nat), k < w.nextRef →
      storesAt (applyOp w r c).1 k = storesAt w k) ∧
    (∀ (w : World) (r : Nat),
      w.nextRef ≤ (cloneData w r).2 ∧
      (recOf (cloneData w r).1 (cloneData w r).2).masterGain = (recOf w r).masterGain ∧
      OptCopy tablesAt w (cloneData w r).1 (recOf w r).audioBuffers
        (recOf (cloneData w r).1 (cloneData w r).2).audioBuffers ∧
      OptCopy locmapsAt w (cloneData w r).1 (recOf w r).locations
        (recOf (cloneData w r).1 (cloneData w r).2).locations ∧
      OptCopy srcmapsAt w (cloneData w r).1 (recOf w r).sources
        (recOf (cloneData w r).1 (cloneData w r).2).sources) ∧
    (∀ (w : World) (r : Nat) (c : OpCall), IsCloningCall w r c →
      ∃ r', (applyOp w r c).2 = some (.ref r') ∧ FreshRec w (applyOp w r c).1 r') := by
  refine ⟨fun w r c k hk => (extFrom_applyOp w r c).2 k hk, fun w r =>
    ⟨cloneData_ref_fresh w r, (cloneData_spec w r).1, (cloneData_spec w r).2.2.2.2,
     (cloneData_spec w r).2.2.1, (cloneData_spec w r).2.2.2.1⟩,
    cloningCall_fresh⟩

/-- Witness for C1 at a concrete input: the single record of `wEx` is
untouched by a `masterGain` call, and `removeSound` returns a fresh record. -/
theorem claim_C1_structural_immutability_witness :
    storesAt (applyOp wEx 0 (.masterGain none)).1 0 = storesAt wEx 0 ∧
    (∃ r', (applyOp wEx 0 (.removeSound "x")).2 = some (.ref r') ∧
      FreshRec wEx (applyOp wEx 0 (.removeSound "x")).1 r') :=
  ⟨claim_C1_structural_immutability.1 wEx 0 (.masterGain none) 0 (by decide),
   claim_C1_structural_immutability.2.2 wEx 0 (.removeSound "x") trivial⟩

/-! ## Disabled wrappers -/

theorem callOp_disabled {wr : Wrapper} (hd : wr.disabled = true) (w : World) (c : OpCall) :
    callOp w wr c = (w, .wrap wr) := by
  unfold callOp
  rw [if_pos hd]

theorem runChain_disabled {wr : Wrapper} (hd : wr.disabled = true) :
    ∀ (cs : List OpCall) (w : World), runChain w wr cs = (w, .wrap wr)
  | [], _ => rfl
  | c :: cs, w => by
      unfold runChain
      rw [callOp_disabled hd]
      exact runChain_disabled hd cs w

/-- C2: graceful degradation.  When the audio capability context is absent
(`ctx = false`) or the wrapped value is falsy (`none`), the unit constructor
installs the return-self `bind`; consequently every registered operation
call on the wrapper — with any arguments — returns the very same wrapper,
never throws, and performs no action (the world is untouched), and so does
any chain of such calls. -/
theorem claim_C2_graceful_degradation (ctx : Bool) (v : Option Nat) (wid : Nat)
    (h : ctx = false ∨ v = none) :
    (mkWrapper ctx v wid).disabled = true ∧
    (∀ (w : World) (c : OpCall),
      callOp w (mkWrapper ctx v wid) c = (w, .wrap (mkWrapper ctx v wid))) ∧
    (∀ (w : World) (cs : List OpCall),
      runChain w (mkWrapper ctx v wid) cs = (w, .wrap (mkWrapper ctx v wid))) := by
  have hd : (mkWrapper ctx v wid).disabled = true := by
    rcases h with h | h <;> simp [mkWrapper, h]
  exact ⟨hd, fun w c => callOp_disabled hd w c, fun w cs => runChain_disabled hd cs w⟩

/-- Witness for C2: a context-less wrapper around a live value swallows a
whole chain (`addSound`, the accessor, `masterGain`) returning itself. -/
theorem claim_C2_graceful_degradation_witness :
    callOp wEx (mkWrapper false (some 0) 7) (.play "ping" none) =
      (wEx, .wrap (mkWrapper false (some 0) 7)) ∧
    runChain wEx (mkWrapper false (some 0) 7)
        [.addSound "a" "x,y", .getAudioBuffers, .masterGain none] =
      (wEx, .wrap (mkWrapper false (some 0) 7)) :=
  ⟨(claim_C2_graceful_degradation false (some 0) 7 (Or.inl rfl)).2.1 wEx _,
   (claim_C2_graceful_degradation false (some 0) 7 (Or.inl rfl)).2.2 wEx _⟩

/-- C10: on a disabled wrapper the `lift_value`-registered accessor
`getAudioBuffers` returns the wrapper object itself (the overridden `bind`
returns the monad), never a raw buffer mapping — so a disabled chain can
never observe an empty mapping through it. -/
theorem claim_C10_disabled_accessor (w : World) (wr : Wrapper) (h : wr.disabled = true) :
    callOp w wr .getAudioBuffers = (w, .wrap wr) ∧
    ∀ (w' : World) (t : Nat), callOp w wr .getAudioBuffers ≠ (w', .raw t) := by
  refine ⟨callOp_disabled h w _, fun w' t hq => ?_⟩
  rw [callOp_disabled h] at hq
  simp at hq

/-- Witness for C10 at a concrete disabled wrapper. -/
theorem claim_C10_disabled_accessor_witness :
    callOp wEx (mkWrapper false (some 0) 3) .getAudioBuffers =
      (wEx, .wrap (mkWrapper false (some 0) 3)) :=
  (claim_C10_disabled_accessor wEx _ (by decide)).1

/-! ## `play` without a playable buffer -/

/-- The `audioBuffers[id]` read of `play`. -/
def bufferOf (w : World) (r : Nat) (id : String) : Option BufEntry :=
  (recOf w r).audioBuffers.bind (fun tb => sGet (tableOf w tb) id)

/-- C3: for every state and identifier, `play` neither throws nor performs
any playback action when the buffer table is absent, has no entry for the
identifier, or holds the `pending`/`failed` marker there: the world is
untouched (no source created, nothing connected, nothing started) and the
state is returned unchanged. -/
theorem claim_C3_play_noop (w : World) (r : Nat) (id : String) (loc : Option String)
    (h : bufferOf w r id = none ∨ bufferOf w r id = some .pending ∨
      bufferOf w r id = some .failed) :
    play w r id loc = (w, some (.ref r)) := by
  unfold play
  try dsimp only
  rcases h with h | h | h <;>
    · have h' : (recOf w r).audioBuffers.bind (fun tb => sGet (tableOf w tb) id) = _ := h
      rw [h']

/-- A concrete world whose record `0` has the table `x ↦ pending` (object 1). -/
def wPend : World :=
  { recs := [(0, { audioBuffers := some 1 })], tables := [(1, [("x", .pending)])],
    nextRef := 2 }

/-- Witness for C3: `play` at an absent identifier and at a pending one. -/
theorem claim_C3_play_noop_witness :
    play wEx 0 "x" none = (wEx, some (.ref 0)) ∧
    play wPend 0 "x" (some "spot") = (wPend, some (.ref 0)) :=
  ⟨claim_C3_play_noop wEx 0 "x" none (Or.inl (by decide)),
   claim_C3_play_noop wPend 0 "x" (some "spot") (Or.inr (Or.inl (by decide)))⟩

/-! ## Buffer-table copy semantics (`removeSound` / `getAudioBuffers`) -/

@[simp] theorem nextRef_allocTable (w : World) (t : Table) :
    (allocTable w t).1.nextRef = w.nextRef + 1 := rfl

@[simp] theorem allocTable_ref (w : World) (t : Table) : (allocTable w t).2 = w.nextRef := rfl

@[simp] theorem nextRef_setTable (w : World) (tq : Nat) (tb : Table) :
    (setTable w tq tb).nextRef = w.nextRef := rfl

@[simp] theorem tableOf_allocTable_self (w : World) (t : Table) :
    tableOf (allocTable w t).1 (allocTable w t).2 = t := by
  simp [tableOf, allocTable, alGet]

theorem tableOf_allocTable_ne (w : World) (t : Table) {k : Nat} (h : k ≠ w.nextRef) :
    tableOf (allocTable w t).1 k = tableOf w k := by
  simp [tableOf, allocTable, alGet, if_neg (h ∘ Eq.symm)]

theorem tableOf_setTable_self {w : World} {tq : Nat} (tb : Table)
    (hlive : (alGet w.tables tq).isSome) : tableOf (setTable w tq tb) tq = tb := by
  unfold tableOf setTable
  simp only [alGet_alSet_self]
  obtain ⟨v, hv⟩ := Option.isSome_iff_exists.mp hlive
  rw [hv]; rfl

theorem tableOf_setTable_ne {w : World} {tq k : Nat} (tb : Table) (h : k ≠ tq) :
    tableOf (setTable w tq tb) k = tableOf w k := by
  unfold tableOf setTable
  rw [alGet_alSet_ne _ _ _ _ h]

/-- Extract the copy facts for the clone's buffer table. -/
theorem cloneData_table_copy {w : World} {r tb : Nat}
    (h : (recOf (cloneData w r).1 (cloneData w r).2).audioBuffers = some tb) :
    ∃ t0, (recOf w r).audioBuffers = some t0 ∧ w.nextRef ≤ tb ∧
      tb < (cloneData w r).1.nextRef ∧
      alGet (cloneData w r).1.tables tb = some (tableOf w t0) := by
  have hs := (cloneData_spec w r).2.2.2.2
  rw [h] at hs
  cases h0 : (recOf w r).audioBuffers with
  | none => rw [h0] at hs; simp [OptCopy] at hs
  | some t0 =>
      rw [h0] at hs
      exact ⟨t0, rfl, hs.1, hs.2.1, hs.2.2⟩

/-- Extract the copy facts for the clone's `locations` mapping. -/
theorem cloneData_locmap_copy {w : World} {r lr : Nat}
    (h : (recOf (cloneData w r).1 (cloneData w r).2).locations = some lr) :
    ∃ l0, (recOf w r).locations = some l0 ∧ w.nextRef ≤ lr ∧
      lr < (cloneData w r).1.nextRef ∧
      alGet (cloneData w r).1.locmaps lr = some (locmapOf w l0) := by
  have hs := (cloneData_spec w r).2.2.1
  rw [h] at hs
  cases h0 : (recOf w r).locations with
  | none => rw [h0] at hs; simp [OptCopy] at hs
  | some l0 =>
      rw [h0] at hs
      exact ⟨l0, rfl, hs.1, hs.2.1, hs.2.2⟩

/-- Full characterization of the `getAudioBuffers` accessor: it returns a
freshly allocated mapping; its contents are empty when no buffer table
exists, and a shallow copy of the (live) buffer table otherwise; no live
table and no record is modified. -/
theorem getAudioBuffers_spec (w : World) (r : Nat) :
    ∃ t, (getAudioBuffers w r).2 = some (.table t) ∧
      w.nextRef ≤ t ∧ t < (getAudioBuffers w r).1.nextRef ∧
      ((recOf w r).audioBuffers = none → tableOf (getAudioBuffers w r).1 t = []) ∧
      (∀ tb, (recOf w r).audioBuffers = some tb → tb < w.nextRef →
        tableOf (getAudioBuffers w r).1 t = tableOf w tb) ∧
      (∀ k, k < w.nextRef → tableOf (getAudioBuffers w r).1 k = tableOf w k) ∧
      (getAudioBuffers w r).1.recs = w.recs := by
  unfold getAudioBuffers
  try dsimp only
  cases hab : (recOf (allocTable w []).1 r).audioBuffers with
  | none =>
      refine ⟨w.nextRef, rfl, le_rfl, by simp,
        fun _ => by simpa using tableOf_allocTable_self w [], ?_, ?_, rfl⟩
      · intro tb htb
        rw [show recOf (allocTable w []).1 r = recOf w r from rfl] at hab
        rw [htb] at hab; cases hab
      · intro k hk
        exact tableOf_allocTable_ne w [] (Nat.ne_of_lt hk)
  | some tb =>
      refine ⟨w.nextRef + 1, rfl, Nat.le_succ_of_le le_rfl, by simp, ?_, ?_, ?_, rfl⟩
      · intro hn
        rw [show recOf (allocTable w []).1 r = recOf w r from rfl] at hab
        rw [hn] at hab; cases hab
      · intro tb' htb' hlt
        rw [show recOf (allocTable w []).1 r = recOf w r from rfl] at hab
        rw [htb'] at hab
        cases hab
        have h1 : tableOf (allocTable (allocTable w []).1
            (tableOf (allocTable w []).1 tb)).1 (w.nextRef + 1) =
            tableOf (allocTable w []).1 tb := by
          simpa using tableOf_allocTable_self (allocTable w []).1 (tableOf (allocTable w []).1 tb)
        rw [h1]
        exact tableOf_allocTable_ne w [] (Nat.ne_of_lt hlt)
      · intro k hk
        have h1 : tableOf (allocTable (allocTable w []).1
            (tableOf (allocTable w []).1 tb)).1 k = tableOf (allocTable w []).1 k :=
          tableOf_allocTable_ne _ _ (by simp; omega)
        rw [h1]
        exact tableOf_allocTable_ne w [] (Nat.ne_of_lt hk)

/-! Scheduled-decode bookkeeping: the `pend` component through the steps. -/

@[simp] theorem pend_allocRec (w : World) (rc : RecC) : (allocRec w rc).1.pend = w.pend := rfl

@[simp] theorem pend_allocTable (w : World) (t : Table) :
    (allocTable w t).1.pend = w.pend := rfl

@[simp] theorem pend_allocLoc (w : World) (m : LocMap) : (allocLoc w m).1.pend = w.pend := rfl

@[simp] theorem pend_allocSrc (w : World) (m : SrcMap) : (allocSrc w m).1.pend = w.pend := rfl

@[simp] theorem pend_setRec (w : World) (r : Nat) (rc : RecC) :
    (setRec w r rc).pend = w.pend := rfl

@[simp] theorem pend_setTable (w : World) (t : Nat) (tb : Table) :
    (setTable w t tb).pend = w.pend := rfl

@[simp] theorem pend_schedule (w : World) (d : Decode) :
    (schedule w d).pend = w.pend ++ [d] := rfl

@[simp] theorem pend_copyOptLoc (w : World) (o : Option Nat) :
    (copyOptLoc w o).1.pend = w.pend := by cases o <;> rfl

@[simp] theorem pend_copyOptSrc (w : World) (o : Option Nat) :
    (copyOptSrc w o).1.pend = w.pend := by cases o <;> rfl

@[simp] theorem pend_copyOptTable (w : World) (o : Option Nat) :
    (copyOptTable w o).1.pend = w.pend := by cases o <;> rfl

theorem pend_cloneData (w : World) (r : Nat) : (cloneData w r).1.pend = w.pend := by
  simp only [cloneData, cloneRec, pend_setRec, pend_copyOptTable, pend_copyOptSrc,
    pend_copyOptLoc, pend_allocRec]

theorem alGet_setTable_isSome {w : World} {tb : Nat} (tbl : Table)
    (h : (alGet w.tables tb).isSome) : (alGet (setTable w tb tbl).tables tb).isSome := by
  unfold setTable
  simp only [alGet_alSet_self]
  obtain ⟨v, hv⟩ := Option.isSome_iff_exists.mp h
  rw [hv]; rfl

/-- A `pending` mark survives the rest of the `sounds` loop: every later
write into the captured table writes `pending` as well. -/
theorem soundsLoop_pending_persists (tb : Nat) (k : String) :
    ∀ (m : List (String × String)) (w : World), (alGet w.tables tb).isSome →
      sGet (tableOf w tb) k = some .pending →
      sGet (tableOf (soundsLoop w tb m).1 tb) k = some .pending
  | [], _, _, hk => hk
  | (k2, data) :: rest, w, hlive, hk => by
      unfold soundsLoop
      have h1 : tableOf (setTable w tb (sSet (tableOf w tb) k2 .pending)) tb =
          sSet (tableOf w tb) k2 .pending := tableOf_setTable_self _ hlive
      have h2 : sGet (tableOf (setTable w tb (sSet (tableOf w tb) k2 .pending)) tb) k =
          some .pending := by
        rw [h1]
        by_cases hkk : k = k2
        · subst hkk; rw [sGet_sSet_self]
        · rw [sGet_sSet_ne _ _ _ _ hkk]; exact hk
      cases hp : splitPayload data with
      | none => exact h2
      | some p =>
          exact soundsLoop_pending_persists tb k rest _
            (alGet_setTable_isSome _ hlive) h2

/-- Every decode scheduled by the `sounds` loop captures the loop's table,
and at the end of the loop that table holds `pending` for its identifier. -/
theorem soundsLoop_pend_spec (tb : Nat) :
    ∀ (m : List (String × String)) (w : World), (alGet w.tables tb).isSome →
      ∃ ds, (soundsLoop w tb m).1.pend = w.pend ++ ds ∧
        ∀ d ∈ ds, d.tableRef = tb ∧
          sGet (tableOf (soundsLoop w tb m).1 tb) d.id = some .pending
  | [], w, _ => ⟨[], by simp [soundsLoop], by simp⟩
  | (k2, data) :: rest, w, hlive => by
      unfold soundsLoop
      have hlive1 : (alGet (setTable w tb (sSet (tableOf w tb) k2 .pending)).tables
          tb).isSome := alGet_setTable_isSome _ hlive
      have hpend : sGet (tableOf (setTable w tb (sSet (tableOf w tb) k2 .pending)) tb)
          k2 = some .pending := by
        rw [tableOf_setTable_self _ hlive, sGet_sSet_self]
      cases hp : splitPayload data with
      | none => exact ⟨[], by simp, by simp⟩
      | some p =>
          obtain ⟨ds, hds, hprop⟩ := soundsLoop_pend_spec tb rest
            (schedule (setTable w tb (sSet (tableOf w tb) k2 .pending)) ⟨tb, k2, p⟩)
            hlive1
          refine ⟨⟨tb, k2, p⟩ :: ds, ?_, ?_⟩
          · rw [hds]; simp
          · intro d hd
            rcases List.mem_cons.mp hd with hd | hd
            · subst hd
              exact ⟨rfl, soundsLoop_pending_persists tb k2 rest _ hlive1 hpend⟩
            · exact hprop d hd

@[simp] theorem pend_soundsTable (w : World) (r' : Nat) :
    (soundsTable w r').1.pend = w.pend := by
  unfold soundsTable
  split <;> rfl

/-- The table selected by `sounds` is a live object. -/
theorem soundsTable_live (w : World) (r : Nat) :
    (alGet (soundsTable (cloneData w r).1 (cloneData w r).2).1.tables
      (soundsTable (cloneData w r).1 (cloneData w r).2).2).isSome := by
  unfold soundsTable
  try dsimp only
  split
  · rename_i tb hab
    obtain ⟨t0, _, _, _, hlive⟩ := cloneData_table_copy hab
    rw [hlive]; rfl
  · simp [allocTable, alGet]

/-- Decodes scheduled by a successful `sounds` call: each targets exactly
the buffer table stored in the returned state, marked `pending` there. -/
theorem sounds_decodes (w : World) (r : Nat) (m : List (String × String))
    (w' : World) (r' : Nat) (h : sounds w r m = (w', some (.ref r'))) :
    ∃ ds, w'.pend = w.pend ++ ds ∧
      ∀ d ∈ ds, (recOf w' r').audioBuffers = some d.tableRef ∧
        sGet (tableOf w' d.tableRef) d.id = some .pending := by
  unfold sounds at h
  try dsimp only at h
  by_cases hok : (soundsLoop (soundsTable (cloneData w r).1 (cloneData w r).2).1
      (soundsTable (cloneData w r).1 (cloneData w r).2).2 m).2 = true
  · rw [if_pos hok] at h
    injection h with hw hs
    injection hs with hs
    injection hs with hr
    subst hw; subst hr
    obtain ⟨ds, hds, hprop⟩ := soundsLoop_pend_spec
      (soundsTable (cloneData w r).1 (cloneData w r).2).2 m
      (soundsTable (cloneData w r).1 (cloneData w r).2).1 (soundsTable_live w r)
    have hlive' : (alGet (soundsLoop (soundsTable (cloneData w r).1 (cloneData w r).2).1
        (soundsTable (cloneData w r).1 (cloneData w r).2).2 m).1.recs
        (cloneData w r).2).isSome := by
      rw [recs_soundsLoop, recs_soundsTable]
      exact cloneData_live w r
    refine ⟨ds, ?_, ?_⟩
    · rw [pend_setRec, hds, pend_soundsTable, pend_cloneData]
    · intro d hd
      obtain ⟨hdt, hdp⟩ := hprop d hd
      constructor
      · rw [recOf_setRec_self _ hlive', hdt]
      · rw [hdt]
        exact hdp
  · rw [if_neg hok] at h
    injection h with hw hs
    cases hs

/-- Decodes scheduled by a successful `addSound` call: the single decode
targets exactly the buffer table of the returned state, marked `pending`. -/
theorem addSound_decodes (w : World) (r : Nat) (id data : String)
    (w' : World) (r' : Nat) (h : addSound w r id data = (w', some (.ref r'))) :
    ∃ ds, w'.pend = w.pend ++ ds ∧
      ∀ d ∈ ds, (recOf w' r').audioBuffers = some d.tableRef ∧
        sGet (tableOf w' d.tableRef) d.id = some .pending := by
  unfold addSound at h
  try dsimp only at h
  revert h
  split
  · intro h
    injection h with hw hs
    cases hs
  · rename_i tb hab
    intro h
    revert h
    split
    · intro h
      injection h with hw hs
      cases hs
    · rename_i p hp
      intro h
      injection h with hw hs
      injection hs with hs
      injection hs with hr
      subst hw; subst hr
      obtain ⟨t0, _, _, _, hlive⟩ := cloneData_table_copy hab
      refine ⟨[⟨tb, id, p⟩], by rw [pend_schedule, pend_setTable, pend_cloneData], ?_⟩
      intro d hd
      rcases List.mem_singleton.mp hd with rfl
      refine ⟨hab, ?_⟩
      have hl : (alGet (cloneData w r).1.tables tb).isSome := by rw [hlive]; rfl
      show sGet (tableOf (setTable (cloneData w r).1 tb
        (sSet (tableOf (cloneData w r).1 tb) id .pending)) tb) id = some .pending
      rw [tableOf_setTable_self _ hl, sGet_sSet_self]

/-- The decode callbacks write the outcome into the captured table. -/
theorem fireDecode_writes (w : World) (d : Decode) (o : DecOutcome)
    (h : (alGet w.tables d.tableRef).isSome) :
    sGet (tableOf (fireDecode w d o) d.tableRef) d.id = some (outcomeEntry o) := by
  unfold fireDecode
  obtain ⟨v, hv⟩ := Option.isSome_iff_exists.mp h
  rw [hv]
  try dsimp only
  have hv' : tableOf w d.tableRef = v := by unfold tableOf; rw [hv]; rfl
  rw [tableOf_setTable_self _ h, sGet_sSet_self]

/-- The decode callbacks touch no other table object. -/
theorem fireDecode_other (w : World) (d : Decode) (o : DecOutcome) (k : Nat)
    (h : k ≠ d.tableRef) : alGet (fireDecode w d o).tables k = alGet w.tables k := by
  unfold fireDecode
  split
  · exact alGet_alSet_ne _ _ _ _ h
  · rfl

/-- The decode callbacks touch no record and no other kind of mapping. -/
theorem fireDecode_stores (w : World) (d : Decode) (o : DecOutcome) :
    (fireDecode w d o).recs = w.recs ∧ (fireDecode w d o).locmaps = w.locmaps ∧
    (fireDecode w d o).srcmaps = w.srcmaps ∧ (fireDecode w d o).panmaps = w.panmaps := by
  unfold fireDecode
  split <;> exact ⟨rfl, rfl, rfl, rfl⟩

/-- C5: decode lifecycle and table identity.  (1) Every decode scheduled by
a successful `sounds` or `addSound` call captures exactly the buffer-table
object of the state the operation returns, and that identical table holds
`pending` for the decode's identifier when the operation returns.
(2) Firing a decode's success callback turns that identical table's entry
into the decoded handle, (3) the failure callback turns it into `failed`,
and (4,5) no other table object — and no record or other mapping — is
written by the callbacks. -/
theorem claim_C5_decode_identity :
    (∀ (w : World) (r : Nat) (c : OpCall) (w' : World) (r' : Nat),
      ((∃ m, c = .sounds m) ∨ (∃ id data, c = .addSound id data)) →
      applyOp w r c = (w', some (.ref r')) →
      ∃ ds, w'.pend = w.pend ++ ds ∧
        ∀ d ∈ ds, (recOf w' r').audioBuffers = some d.tableRef ∧
          sGet (tableOf w' d.tableRef) d.id = some .pending) ∧
    (∀ (w : World) (d : Decode) (hnd : Nat), (alGet w.tables d.tableRef).isSome →
      sGet (tableOf (fireDecode w d (.ok hnd)) d.tableRef) d.id = some (.handle hnd)) ∧
    (∀ (w : World) (d : Decode), (alGet w.tables d.tableRef).isSome →
      sGet (tableOf (fireDecode w d .err) d.tableRef) d.id = some .failed) ∧
    (∀ (w : World) (d : Decode) (o : DecOutcome) (k : Nat), k ≠ d.tableRef →
      alGet (fireDecode w d o).tables k = alGet w.tables k) ∧
    (∀ (w : World) (d : Decode) (o : DecOutcome),
      (fireDecode w d o).recs = w.recs ∧ (fireDecode w d o).locmaps = w.locmaps ∧
      (fireDecode w d o).srcmaps = w.srcmaps ∧ (fireDecode w d o).panmaps = w.panmaps) := by
  refine ⟨?_, fun w d hnd h => fireDecode_writes w d (.ok hnd) h,
    fun w d h => fireDecode_writes w d .err h, fireDecode_other, fireDecode_stores⟩
  intro w r c w' r' hc h
  rcases hc with ⟨m, rfl⟩ | ⟨id, data, rfl⟩
  · exact sounds_decodes w r m w' r' h
  · exact addSound_decodes w r id data w' r' h

/-- Witness for C5: a concrete `sounds` call from the empty state, and a
concrete decode success on the pending table of `wPend`. -/
theorem claim_C5_decode_identity_witness :
    (∃ ds, (applyOp wEx 0 (.sounds [("ping", "a,AAAA")])).1.pend = wEx.pend ++ ds ∧
      ∀ d ∈ ds,
        (recOf (applyOp wEx 0 (.sounds [("ping", "a,AAAA")])).1 1).audioBuffers =
          some d.tableRef ∧
        sGet (tableOf (applyOp wEx 0 (.sounds [("ping", "a,AAAA")])).1 d.tableRef)
          d.id = some .pending) ∧
    sGet (tableOf (fireDecode wPend ⟨1, "x", "AAAA"⟩ (.ok 42)) 1) "x" =
      some (.handle 42) :=
  ⟨claim_C5_decode_identity.1 wEx 0 (.sounds [("ping", "a,AAAA")]) _ 1
      (Or.inl ⟨_, rfl⟩) rfl,
   claim_C5_decode_identity.2.1 wPend ⟨1, "x", "AAAA"⟩ 42 (by decide)⟩

/-! ## Lazy master gain (`play`) -/

/-- Is this action a gain-node creation? -/
def isCreateGain : AudioAction → Bool
  | .createGain _ _ => true
  | _ => false

/-- Is this action a connection to the output destination? -/
def isConnectDest : AudioAction → Bool
  | .connectDest _ => true
  | _ => false

@[simp] theorem log_emit (w : World) (a : AudioAction) : (emit w a).log = w.log ++ [a] := rfl

@[simp] theorem log_allocRec (w : World) (rc : RecC) : (allocRec w rc).1.log = w.log := rfl

@[simp] theorem log_allocTable (w : World) (t : Table) : (allocTable w t).1.log = w.log := rfl

@[simp] theorem log_allocLoc (w : World) (m : LocMap) : (allocLoc w m).1.log = w.log := rfl

@[simp] theorem log_allocSrc (w : World) (m : SrcMap) : (allocSrc w m).1.log = w.log := rfl

@[simp] theorem log_setRec (w : World) (r : Nat) (rc : RecC) : (setRec w r rc).log = w.log := rfl

@[simp] theorem log_setTable (w : World) (t : Nat) (tb : Table) :
    (setTable w t tb).log = w.log := rfl

@[simp] theorem log_setLoc (w : World) (t : Nat) (m : LocMap) :
    (setLoc w t m).log = w.log := rfl

@[simp] theorem log_newNode (w : World) : (newNode w).1.log = w.log := rfl

@[simp] theorem log_schedule (w : World) (d : Decode) : (schedule w d).log = w.log := rfl

@[simp] theorem log_copyOptLoc (w : World) (o : Option Nat) :
    (copyOptLoc w o).1.log = w.log := by cases o <;> rfl

@[simp] theorem log_copyOptSrc (w : World) (o : Option Nat) :
    (copyOptSrc w o).1.log = w.log := by cases o <;> rfl

@[simp] theorem log_copyOptTable (w : World) (o : Option Nat) :
    (copyOptTable w o).1.log = w.log := by cases o <;> rfl

theorem log_cloneData (w : World) (r : Nat) : (cloneData w r).1.log = w.log := by
  simp only [cloneData, cloneRec, log_setRec, log_copyOptTable, log_copyOptSrc,
    log_copyOptLoc, log_allocRec]

@[simp] theorem nextNode_cloneData (w : World) (r : Nat) :
    (cloneData w r).1.nextNode = w.nextNode := by
  simp only [cloneData, cloneRec]
  cases (recOf w r).locations <;> cases (recOf w r).sources <;>
    cases (recOf w r).audioBuffers <;> rfl

theorem cloneData_masterGain (w : World) (r : Nat) :
    (recOf (cloneData w r).1 (cloneData w r).2).masterGain = (recOf w r).masterGain :=
  (cloneData_spec w r).1

/-- The routing step emits only connections — never a gain creation or a
destination connection. -/
theorem playRoute_log (w : World) (s mg : Nat) (rc : RecC) (loc : Option String) :
    ∃ l, (playRoute w s mg rc loc).log = w.log ++ l ∧
      l.countP isCreateGain = 0 ∧ l.countP isConnectDest = 0 := by
  unfold playRoute
  cases hp : pannerFor w rc loc with
  | none =>
      try simp only [hp]
      exact ⟨[.connect s mg], by simp, rfl, rfl⟩
  | some p =>
      try simp only [hp]
      exact ⟨[.connect s p, .connect p mg], by simp, rfl, rfl⟩

/-- The playback tail creates no gain and touches no record: it only emits
the source-creation, buffer, connection and start actions. -/
theorem playCore_spec (q : World × Nat) (hnd : Nat) (loc : Option String) :
    ∃ l, (playCore q hnd loc).1.log = q.1.log ++ l ∧
      l.countP isCreateGain = 0 ∧ l.countP isConnectDest = 0 ∧
      (playCore q hnd loc).1.recs = q.1.recs ∧
      (playCore q hnd loc).2 = some (.ref q.2) := by
  unfold playCore
  try dsimp only
  obtain ⟨lr, hlr, hcg, hcd⟩ := playRoute_log
    (emit (emit (newNode q.1).1 (.createBufferSource (newNode q.1).2))
      (.setBuffer (newNode q.1).2 hnd)) (newNode q.1).2
    ((recOf q.1 q.2).masterGain.getD 0) (recOf q.1 q.2) loc
  refine ⟨[.createBufferSource q.1.nextNode, .setBuffer q.1.nextNode hnd] ++ lr ++
    [.start q.1.nextNode 0], ?_, ?_, ?_, ?_, rfl⟩
  · rw [log_emit, hlr]
    simp [emit, newNode]
  · simp [List.countP_append, hcg, List.countP_cons, isCreateGain]
  · simp [List.countP_append, hcd, List.countP_cons, isConnectDest]
  · rw [recs_emit, recs_playRoute, recs_emit, recs_emit, recs_newNode]

/-- The lazy-gain step, when the master gain is absent: it clones, creates
one gain (volume 1), connects it to the destination, and stores its handle
on the fresh record. -/
theorem playGainStep_lazy_spec (w : World) (r : Nat)
    (hmg : (recOf w r).masterGain = none) :
    (playGainStep w r).2 = (cloneData w r).2 ∧
    (playGainStep w r).1.log = w.log ++
      [.createGain (cloneData w r).1.nextNode 1,
       .connectDest (cloneData w r).1.nextNode] ∧
    (recOf (playGainStep w r).1 (playGainStep w r).2).masterGain =
      some (cloneData w r).1.nextNode := by
  unfold playGainStep
  rw [if_pos hmg]
  try dsimp only
  refine ⟨rfl, ?_, ?_⟩
  · rw [log_setRec]
    simp [createMasterGainCtx, createGainCtx, emit, newNode, jsOr, log_cloneData]
  · rw [recOf_setRec_self _ (by rw [recs_createMasterGain]; exact cloneData_live w r)]
    rfl

/-- The lazy-gain path of `play`: exactly one gain is created, connected to
the destination once, and stored in the fresh returned record. -/
theorem play_lazy_gain (w : World) (r : Nat) (id : String) (loc : Option String)
    (hnd : Nat) (hmg : (recOf w r).masterGain = none)
    (hbuf : bufferOf w r id = some (.handle hnd)) :
    ∃ r' g l, (play w r id loc).2 = some (.ref r') ∧ w.nextRef ≤ r' ∧
      (play w r id loc).1.log = w.log ++ l ∧
      l.countP isCreateGain = 1 ∧ l.countP isConnectDest = 1 ∧
      (recOf (play w r id loc).1 r').masterGain = some g ∧
      .createGain g 1 ∈ l ∧ .connectDest g ∈ l := by
  unfold play
  try dsimp only
  rw [show (recOf w r).audioBuffers.bind (fun tb => sGet (tableOf w tb) id) =
    some (.handle hnd) from hbuf]
  obtain ⟨h2, hlog1, hmg1⟩ := playGainStep_lazy_spec w r hmg
  obtain ⟨l2, hlog2, hcg2, hcd2, hrecs2, hret2⟩ := playCore_spec (playGainStep w r) hnd loc
  refine ⟨(playGainStep w r).2, (cloneData w r).1.nextNode,
    [.createGain (cloneData w r).1.nextNode 1,
     .connectDest (cloneData w r).1.nextNode] ++ l2, hret2, ?_, ?_, ?_, ?_, ?_, ?_, ?_⟩
  · rw [h2]
    exact cloneData_ref_fresh w r
  · rw [hlog2, hlog1, List.append_assoc]
  · simp [List.countP_append, hcg2, List.countP_cons, isCreateGain]
  · simp [List.countP_append, hcd2, List.countP_cons, isConnectDest]
  · rw [show recOf (playCore (playGainStep w r) hnd loc).1 (playGainStep w r).2 =
      recOf (playGainStep w r).1 (playGainStep w r).2 from by unfold recOf; rw [hrecs2]]
    exact hmg1
  · simp
  · simp

theorem locateEnsureMap_masterGain (w : World) (r : Nat) :
    (recOf (locateEnsureMap (cloneData w r).1 (cloneData w r).2).1
      (cloneData w r).2).masterGain = (recOf w r).masterGain := by
  unfold locateEnsureMap
  try dsimp only
  split
  · exact cloneData_masterGain w r
  · rw [recOf_setRec_self _ (by simpa using cloneData_live w r)]
    exact cloneData_masterGain w r

/-- `play` on a state that already has a master gain creates none. -/
theorem play_no_second_gain (w : World) (r : Nat) (id : String) (loc : Option String)
    (hmg : (recOf w r).masterGain.isSome) :
    ∃ l, (play w r id loc).1.log = w.log ++ l ∧ l.countP isCreateGain = 0 := by
  unfold play
  try dsimp only
  cases hb : (recOf w r).audioBuffers.bind (fun tb => sGet (tableOf w tb) id) with
  | none =>
      try simp only [hb]
      exact ⟨[], by simp, rfl⟩
  | some b =>
      try simp only [hb]
      cases b with
      | pending => exact ⟨[], by simp, rfl⟩
      | failed => exact ⟨[], by simp, rfl⟩
      | handle hd =>
          have hq : playGainStep w r = (w, r) := by
            unfold playGainStep
            rw [if_neg (fun hn => by rw [hn] at hmg; simp at hmg)]
          rw [hq]
          obtain ⟨l2, hlog2, hcg2, _, _, _⟩ := playCore_spec (w, r) hd loc
          exact ⟨l2, hlog2, hcg2⟩

/-- Once a state has a master gain, every registered operation that returns
a state preserves it (by leaf-handle sharing through the clone). -/
theorem masterGain_isSome_preserved (w : World) (r : Nat) (c : OpCall) (w' : World)
    (r' : Nat) (hmg : (recOf w r).masterGain.isSome)
    (h : applyOp w r c = (w', some (.ref r'))) :
    (recOf w' r').masterGain.isSome := by
  cases c with
  | setAudioBuffers buffers =>
      unfold applyOp setAudioBuffers at h
      try dsimp only at h
      injection h with hw hs
      injection hs with hs
      injection hs with hr
      subst hw; subst hr
      rw [recOf_setRec_self _ (by simpa using cloneData_live w r)]
      show ((recOf (cloneData w r).1 (cloneData w r).2).masterGain).isSome
      rw [cloneData_masterGain w r]
      exact hmg
  | getAudioBuffers =>
      obtain ⟨t, ht, _⟩ := getAudioBuffers_spec w r
      have h2 := congrArg Prod.snd h
      rw [show (applyOp w r .getAudioBuffers).2 = some (.table t) from ht] at h2
      cases h2
  | masterGain vol =>
      unfold applyOp masterGain at h
      try dsimp only at h
      injection h with hw hs
      injection hs with hs
      injection hs with hr
      subst hw; subst hr
      rw [recOf_setRec_self _ (by rw [recs_createMasterGain]; exact cloneData_live w r)]
      rfl
  | play id loc =>
      unfold applyOp play at h
      try dsimp only at h
      revert h
      split
      · rename_i hd hb
        intro h
        have hq : playGainStep w r = (w, r) := by
          unfold playGainStep
          rw [if_neg (fun hn => by rw [hn] at hmg; simp at hmg)]
        rw [hq] at h
        obtain ⟨_, _, _, _, hrecs2, hret2⟩ := playCore_spec (w, r) hd loc
        have hw' : (playCore (w, r) hd loc).1 = w' := congrArg Prod.fst h
        have hs' : (playCore (w, r) hd loc).2 = some (.ref r') := congrArg Prod.snd h
        rw [hret2] at hs'
        injection hs' with hs'
        injection hs' with hr'
        subst hw'
        subst hr'
        rw [show recOf (playCore (w, r) hd loc).1 r =
          recOf w r from by unfold recOf; rw [hrecs2]]
        exact hmg
      · intro h
        injection h with hw hs
        injection hs with hs
        injection hs with hr
        subst hw; subst hr
        exact hmg
  | removeSound id =>
      unfold applyOp removeSound at h
      try dsimp only at h
      revert h
      split
      · rename_i tb hab
        intro h
        injection h with hw hs
        injection hs with hs
        injection hs with hr
        subst hw; subst hr
        show ((recOf (cloneData w r).1 (cloneData w r).2).masterGain).isSome
        rw [cloneData_masterGain w r]
        exact hmg
      · intro h
        injection h with hw hs
        injection hs with hs
        injection hs with hr
        subst hw; subst hr
        rw [cloneData_masterGain w r]
        exact hmg
  | sounds m =>
      unfold applyOp sounds at h
      try dsimp only at h
      revert h
      split
      · intro h
        injection h with hw hs
        injection hs with hs
        injection hs with hr
        subst hw; subst hr
        have hlive' : (alGet (soundsLoop (soundsTable (cloneData w r).1
            (cloneData w r).2).1 (soundsTable (cloneData w r).1 (cloneData w r).2).2
            m).1.recs (cloneData w r).2).isSome := by
          rw [recs_soundsLoop, recs_soundsTable]
          exact cloneData_live w r
        rw [recOf_setRec_self _ hlive']
        show ((recOf (soundsLoop (soundsTable (cloneData w r).1 (cloneData w r).2).1
          (soundsTable (cloneData w r).1 (cloneData w r).2).2 m).1
          (cloneData w r).2).masterGain).isSome
        rw [show recOf (soundsLoop (soundsTable (cloneData w r).1 (cloneData w r).2).1
          (soundsTable (cloneData w r).1 (cloneData w r).2).2 m).1 (cloneData w r).2 =
          recOf (cloneData w r).1 (cloneData w r).2 from by
            unfold recOf; rw [recs_soundsLoop, recs_soundsTable]]
        rw [cloneData_masterGain w r]
        exact hmg
      · intro h
        injection h with hw hs
        cases hs
  | addSound id data =>
      unfold applyOp addSound at h
      try dsimp only at h
      revert h
      split
      · intro h
        injection h with hw hs
        cases hs
      · rename_i tb hab
        intro h
        revert h
        split
        · intro h
          injection h with hw hs
          cases hs
        · intro h
          injection h with hw hs
          injection hs with hs
          injection hs with hr
          subst hw; subst hr
          show ((recOf (cloneData w r).1 (cloneData w r).2).masterGain).isSome
          rw [cloneData_masterGain w r]
          exact hmg
  | locate id x y z opts =>
      unfold applyOp locate at h
      try dsimp only at h
      injection h with hw hs
      injection hs with hs
      injection hs with hr
      subst hw; subst hr
      rw [show recOf (locateOpts (emit (locateEnsurePanner
        (locateEnsureMap (cloneData w r).1 (cloneData w r).2).1
        (locateEnsureMap (cloneData w r).1 (cloneData w r).2).2 id).1 _) _ opts)
        (cloneData w r).2 =
        recOf (locateEnsureMap (cloneData w r).1 (cloneData w r).2).1
          (cloneData w r).2 from by
        unfold recOf
        rw [recs_locateOpts, recs_emit, recs_locateEnsurePanner]]
      rw [locateEnsureMap_masterGain w r]
      exact hmg
  | removeLocation id =>
      unfold applyOp removeLocation at h
      try dsimp only at h
      revert h
      split
      · rename_i lr hl
        intro h
        injection h with hw hs
        injection hs with hs
        injection hs with hr
        subst hw; subst hr
        show ((recOf (cloneData w r).1 (cloneData w r).2).masterGain).isSome
        rw [cloneData_masterGain w r]
        exact hmg
      · intro h
        injection h with hw hs
        injection hs with hs
        injection hs with hr
        subst hw; subst hr
        rw [cloneData_masterGain w r]
        exact hmg
  | listenAt x y z =>
      unfold applyOp listenAt at h
      injection h with hw hs
      injection hs with hs
      injection hs with hr
      subst hw; subst hr
      exact hmg
  | orient id x y z =>
      unfold applyOp orient at h
      try dsimp only at h
      revert h
      repeat' split
      all_goals
        intro h
      all_goals
        injection h with hw hs
      all_goals
        injection hs with hs
      all_goals
        injection hs with hr
      all_goals
        subst hw; subst hr; exact hmg
  | cone id inner outer gain =>
      unfold applyOp cone at h
      try dsimp only at h
      revert h
      repeat' split
      all_goals
        intro h
      all_goals
        injection h with hw hs
      all_goals
        injection hs with hs
      all_goals
        injection hs with hr
      all_goals
        subst hw; subst hr; exact hmg

theorem locateEnsureMap_panners (w : World) (r : Nat) :
    (recOf (locateEnsureMap (cloneData w r).1 (cloneData w r).2).1
      (cloneData w r).2).panners = none := by
  unfold locateEnsureMap
  try dsimp only
  split
  · exact (cloneData_spec w r).2.1
  · rw [recOf_setRec_self _ (by simpa using cloneData_live w r)]
    exact (cloneData_spec w r).2.1

/-- No registered operation ever writes a `panners` field: a state without
one can only step to states without one (cloning drops the field, the
non-cloning operations return the record unchanged). -/
theorem panners_none_preserved (w : World) (r : Nat) (c : OpCall) (w' : World)
    (r' : Nat) (hpn : (recOf w r).panners = none)
    (h : applyOp w r c = (w', some (.ref r'))) :
    (recOf w' r').panners = none := by
  cases c with
  | setAudioBuffers buffers =>
      unfold applyOp setAudioBuffers at h
      try dsimp only at h
      injection h with hw hs
      injection hs with hs
      injection hs with hr
      subst hw; subst hr
      rw [recOf_setRec_self _ (by simpa using cloneData_live w r)]
      exact (cloneData_spec w r).2.1
  | getAudioBuffers =>
      obtain ⟨t, ht, _⟩ := getAudioBuffers_spec w r
      have h2 := congrArg Prod.snd h
      rw [show (applyOp w r .getAudioBuffers).2 = some (.table t) from ht] at h2
      cases h2
  | masterGain vol =>
      unfold applyOp masterGain at h
      try dsimp only at h
      injection h with hw hs
      injection hs with hs
      injection hs with hr
      subst hw; subst hr
      rw [recOf_setRec_self _ (by rw [recs_createMasterGain]; exact cloneData_live w r)]
      exact (cloneData_spec w r).2.1
  | play id loc =>
      unfold applyOp play at h
      try dsimp only at h
      revert h
      split
      · rename_i hd hb
        intro h
        have hq : (recOf (playGainStep w r).1 (playGainStep w r).2).panners = none := by
          unfold playGainStep
          split
          · try dsimp only
            rw [recOf_setRec_self _
              (by rw [recs_createMasterGain]; exact cloneData_live w r)]
            exact (cloneData_spec w r).2.1
          · exact hpn
        obtain ⟨_, _, _, _, hrecs2, hret2⟩ := playCore_spec (playGainStep w r) hd loc
        have hw' : (playCore (playGainStep w r) hd loc).1 = w' := congrArg Prod.fst h
        have hs' : (playCore (playGainStep w r) hd loc).2 = some (.ref r') :=
          congrArg Prod.snd h
        rw [hret2] at hs'
        injection hs' with hs'
        injection hs' with hr'
        subst hw'
        subst hr'
        rw [show recOf (playCore (playGainStep w r) hd loc).1 (playGainStep w r).2 =
          recOf (playGainStep w r).1 (playGainStep w r).2 from by
            unfold recOf; rw [hrecs2]]
        exact hq
      · intro h
        injection h with hw hs
        injection hs with hs
        injection hs with hr
        subst hw; subst hr
        exact hpn
  | removeSound id =>
      unfold applyOp removeSound at h
      try dsimp only at h
      revert h
      split
      · rename_i tb hab
        intro h
        injection h with hw hs
        injection hs with hs
        injection hs with hr
        subst hw; subst hr
        exact (cloneData_spec w r).2.1
      · intro h
        injection h with hw hs
        injection hs with hs
        injection hs with hr
        subst hw; subst hr
        exact (cloneData_spec w r).2.1
  | sounds m =>
      unfold applyOp sounds at h
      try dsimp only at h
      revert h
      split
      · intro h
        injection h with hw hs
        injection hs with hs
        injection hs with hr
        subst hw; subst hr
        have hlive' : (alGet (soundsLoop (soundsTable (cloneData w r).1
            (cloneData w r).2).1 (soundsTable (cloneData w r).1 (cloneData w r).2).2
            m).1.recs (cloneData w r).2).isSome := by
          rw [recs_soundsLoop, recs_soundsTable]
          exact cloneData_live w r
        rw [recOf_setRec_self _ hlive']
        show ((recOf (soundsLoop (soundsTable (cloneData w r).1 (cloneData w r).2).1
          (soundsTable (cloneData w r).1 (cloneData w r).2).2 m).1
          (cloneData w r).2).panners) = none
        rw [show recOf (soundsLoop (soundsTable (cloneData w r).1 (cloneData w r).2).1
          (soundsTable (cloneData w r).1 (cloneData w r).2).2 m).1 (cloneData w r).2 =
          recOf (cloneData w r).1 (cloneData w r).2 from by
            unfold recOf; rw [recs_soundsLoop, recs_soundsTable]]
        exact (cloneData_spec w r).2.1
      · intro h
        injection h with hw hs
        cases hs
  | addSound id data =>
      unfold applyOp addSound at h
      try dsimp only at h
      revert h
      split
      · intro h
        injection h with hw hs
        cases hs
      · rename_i tb hab
        intro h
        revert h
        split
        · intro h
          injection h with hw hs
          cases hs
        · intro h
          injection h with hw hs
          injection hs with hs
          injection hs with hr
          subst hw; subst hr
          exact (cloneData_spec w r).2.1
  | locate id x y z opts =>
      unfold applyOp locate at h
      try dsimp only at h
      injection h with hw hs
      injection hs with hs
      injection hs with hr
      subst hw; subst hr
      rw [show recOf (locateOpts (emit (locateEnsurePanner
        (locateEnsureMap (cloneData w r).1 (cloneData w r).2).1
        (locateEnsureMap (cloneData w r).1 (cloneData w r).2).2 id).1 _) _ opts)
        (cloneData w r).2 =
        recOf (locateEnsureMap (cloneData w r).1 (cloneData w r).2).1
          (cloneData w r).2 from by
        unfold recOf
        rw [recs_locateOpts, recs_emit, recs_locateEnsurePanner]]
      rw [locateEnsureMap_panners w r]
  | removeLocation id =>
      unfold applyOp removeLocation at h
      try dsimp only at h
      revert h
      split
      · rename_i lr hl
        intro h
        injection h with hw hs
        injection hs with hs
        injection hs with hr
        subst hw; subst hr
        exact (cloneData_spec w r).2.1
      · intro h
        injection h with hw hs
        injection hs with hs
        injection hs with hr
        subst hw; subst hr
        exact (cloneData_spec w r).2.1
  | listenAt x y z =>
      unfold applyOp listenAt at h
      injection h with hw hs
      injection hs with hs
      injection hs with hr
      subst hw; subst hr
      exact hpn
  | orient id x y z =>
      unfold applyOp orient at h
      try dsimp only at h
      revert h
      repeat' split
      all_goals
        intro h
      all_goals
        injection h with hw hs
      all_goals
        injection hs with hs
      all_goals
        injection hs with hr
      all_goals
        subst hw; subst hr; exact hpn
  | cone id inner outer gain =>
      unfold applyOp cone at h
      try dsimp only at h
      revert h
      repeat' split
      all_goals
        intro h
      all_goals
        injection h with hw hs
      all_goals
        injection hs with hs
      all_goals
        injection hs with hr
      all_goals
        subst hw; subst hr; exact hpn

/-- States reachable by chaining registered operations from an initial
plain value (a record carrying no `panners` field, as in the data model). -/
inductive Reachable : World → Nat → Prop where
  | init (w : World) (r : Nat) : (recOf w r).panners = none → Reachable w r
  | step (w : World) (r : Nat) (c : OpCall) (w' : World) (r' : Nat) :
      Reachable w r → applyOp w r c = (w', some (.ref r')) → Reachable w' r'

theorem reachable_panners_none {w : World} {r : Nat} (h : Reachable w r) :
    (recOf w r).panners = none := by
  induction h with
  | init w r hp => exact hp
  | step w r c w' r' _ hstep ih => exact panners_none_preserved w r c w' r' ih hstep

/-- C9: `orient` and `cone` are no-ops in practice.  Cloning drops any
`panners` field and no registered operation writes one, so every state
reachable by chaining registered operations from an initial plain value has
none; on such states `orient` and `cone` invoke no panner setter and return
the world and state record exactly unchanged. -/
theorem claim_C9_orient_cone_noop :
    (∀ (w : World) (r : Nat),
      (recOf (cloneData w r).1 (cloneData w r).2).panners = none) ∧
    (∀ (w : World) (r : Nat) (c : OpCall) (w' : World) (r' : Nat),
      (recOf w r).panners = none → applyOp w r c = (w', some (.ref r')) →
      (recOf w' r').panners = none) ∧
    (∀ (w : World) (r : Nat), Reachable w r → (recOf w r).panners = none) ∧
    (∀ (w : World) (r : Nat) (id : String) (x y z : Option Int), Reachable w r →
      applyOp w r (.orient id x y z) = (w, some (.ref r))) ∧
    (∀ (w : World) (r : Nat) (id : String) (inner outer gain : Option Int),
      Reachable w r → applyOp w r (.cone id inner outer gain) = (w, some (.ref r))) := by
  have horient : ∀ (w : World) (r : Nat) (id : String) (x y z : Option Int),
      (recOf w r).panners = none → orient w r id x y z = (w, some (.ref r)) := by
    intro w r id x y z hp
    unfold orient
    rw [hp]
  have hcone : ∀ (w : World) (r : Nat) (id : String) (inner outer gain : Option Int),
      (recOf w r).panners = none → cone w r id inner outer gain = (w, some (.ref r)) := by
    intro w r id inner outer gain hp
    unfold cone
    rw [hp]
  refine ⟨fun w r => (cloneData_spec w r).2.1, panners_none_preserved,
    fun w r h => reachable_panners_none h, ?_, ?_⟩
  · intro w r id x y z h
    exact horient w r id x y z (reachable_panners_none h)
  · intro w r id inner outer gain h
    exact hcone w r id inner outer gain (reachable_panners_none h)

/-- Witness for C9 at the concrete plain initial state. -/
theorem claim_C9_orient_cone_noop_witness :
    applyOp wEx 0 (.orient "a" (some 1) none none) = (wEx, some (.ref 0)) ∧
    applyOp wEx 0 (.cone "a" none none none) = (wEx, some (.ref 0)) :=
  ⟨claim_C9_orient_cone_noop.2.2.2.1 wEx 0 "a" (some 1) none none
      (Reachable.init wEx 0 (by decide)),
   claim_C9_orient_cone_noop.2.2.2.2 wEx 0 "a" none none none
      (Reachable.init wEx 0 (by decide))⟩

/-- C6: lazy master-gain creation.  (1) When a state has no master gain and
the played identifier holds a decoded handle, `play` returns a fresh clone,
emits exactly one gain creation and exactly one connection to the output
destination, and stores the created gain in the returned record.  (2) Every
state-returning operation preserves an existing master gain, and (3) `play`
on any state that already has one emits no gain creation — so no later
`play` in a chain creates a second gain node. -/
theorem claim_C6_lazy_master_gain :
    (∀ (w : World) (r : Nat) (id : String) (loc : Option String) (hnd : Nat),
      (recOf w r).masterGain = none → bufferOf w r id = some (.handle hnd) →
      ∃ r' g l, (play w r id loc).2 = some (.ref r') ∧ w.nextRef ≤ r' ∧
        (play w r id loc).1.log = w.log ++ l ∧
        l.countP isCreateGain = 1 ∧ l.countP isConnectDest = 1 ∧
        (recOf (play w r id loc).1 r').masterGain = some g ∧
        .createGain g 1 ∈ l ∧ .connectDest g ∈ l) ∧
    (∀ (w : World) (r : Nat) (c : OpCall) (w' : World) (r' : Nat),
      (recOf w r).masterGain.isSome → applyOp w r c = (w', some (.ref r')) →
      (recOf w' r').masterGain.isSome) ∧
    (∀ (w : World) (r : Nat) (id : String) (loc : Option String),
      (recOf w r).masterGain.isSome →
      ∃ l, (play w r id loc).1.log = w.log ++ l ∧ l.countP isCreateGain = 0) :=
  ⟨play_lazy_gain, masterGain_isSome_preserved, play_no_second_gain⟩

/-- A concrete state whose table holds a decoded handle and no master gain. -/
def wHnd : World :=
  { recs := [(0, { audioBuffers := some 1 })], tables := [(1, [("x", .handle 5)])],
    nextRef := 2 }

/-- A concrete state that already holds a master gain. -/
def wMG : World := { recs := [(0, { masterGain := some 3 })], nextRef := 1 }

/-- Witness for C6: the lazy creation on `wHnd`, and the no-creation fact on
`wMG`. -/
theorem claim_C6_lazy_master_gain_witness :
    (∃ r' g l, (play wHnd 0 "x" none).2 = some (.ref r') ∧ wHnd.nextRef ≤ r' ∧
      (play wHnd 0 "x" none).1.log = wHnd.log ++ l ∧
      l.countP isCreateGain = 1 ∧ l.countP isConnectDest = 1 ∧
      (recOf (play wHnd 0 "x" none).1 r').masterGain = some g ∧
      .createGain g 1 ∈ l ∧ .connectDest g ∈ l) ∧
    (∃ l, (play wMG 0 "x" none).1.log = wMG.log ++ l ∧ l.countP isCreateGain = 0) :=
  ⟨claim_C6_lazy_master_gain.1 wHnd 0 "x" none 5 (by decide) (by decide),
   claim_C6_lazy_master_gain.2.2 wMG 0 "x" none (by decide)⟩

/-! ## Panner reuse (`locate`) -/

/-- The panner stored for an identifier: `value.locations[id]`. -/
def locPanner (w : World) (r : Nat) (id : String) : Option Nat :=
  (recOf w r).locations.bind (fun lr => sGet (locmapOf w lr) id)

@[simp] theorem locmaps_emit (w : World) (a : AudioAction) :
    (emit w a).locmaps = w.locmaps := rfl

@[simp] theorem locmaps_newNode (w : World) : (newNode w).1.locmaps = w.locmaps := rfl

@[simp] theorem locmaps_setRec (w : World) (r : Nat) (rc : RecC) :
    (setRec w r rc).locmaps = w.locmaps := rfl

@[simp] theorem locmaps_allocLoc_get (w : World) (m : LocMap) :
    alGet (allocLoc w m).1.locmaps (allocLoc w m).2 = some m := by
  simp [allocLoc, alGet]

theorem locmaps_locateOpts (w : World) (p : Nat) (opts : Option (List (String × Int))) :
    (locateOpts w p opts).locmaps = w.locmaps := by
  cases opts with
  | none => rfl
  | some os =>
      unfold locateOpts
      induction os generalizing w with
      | nil => rfl
      | cons kv rest ih => simpa only [List.foldl] using ih _

theorem locmapOf_setLoc_self {w : World} {lr : Nat} (m : LocMap)
    (hlive : (alGet w.locmaps lr).isSome) : locmapOf (setLoc w lr m) lr = m := by
  unfold locmapOf setLoc
  simp only [alGet_alSet_self]
  obtain ⟨v, hv⟩ := Option.isSome_iff_exists.mp hlive
  rw [hv]; rfl

theorem locateOpts_log (w : World) (p : Nat) (opts : Option (List (String × Int))) :
    (locateOpts w p opts).log =
      w.log ++ (opts.getD []).map (fun kv => .setPannerProp p kv.1 kv.2) := by
  cases opts with
  | none => simp [locateOpts]
  | some os =>
      unfold locateOpts
      induction os generalizing w with
      | nil => simp
      | cons kv rest ih =>
          simp only [List.foldl, List.map, Option.getD] at ih ⊢
          rw [ih]
          simp [emit]

/-- After the ensure-map step the clone's `locations` field points at a live
mapping object. -/
theorem locateEnsureMap_spec (w : World) (r : Nat) :
    (recOf (locateEnsureMap (cloneData w r).1 (cloneData w r).2).1
      (cloneData w r).2).locations =
      some (locateEnsureMap (cloneData w r).1 (cloneData w r).2).2 ∧
    (alGet (locateEnsureMap (cloneData w r).1 (cloneData w r).2).1.locmaps
      (locateEnsureMap (cloneData w r).1 (cloneData w r).2).2).isSome := by
  unfold locateEnsureMap
  try dsimp only
  split
  · rename_i lr hl
    refine ⟨hl, ?_⟩
    obtain ⟨l0, _, _, _, hlive⟩ := cloneData_locmap_copy hl
    rw [hlive]; rfl
  · constructor
    · rw [recOf_setRec_self _ (by simpa using cloneData_live w r)]
    · rw [show (setRec (allocLoc (cloneData w r).1 []).1 (cloneData w r).2
        { recOf (allocLoc (cloneData w r).1 []).1 (cloneData w r).2 with
          locations := some (allocLoc (cloneData w r).1 []).2 }).locmaps =
        (allocLoc (cloneData w r).1 []).1.locmaps from rfl]
      rw [locmaps_allocLoc_get]; rfl

/-- After the ensure-panner step the mapping holds the returned panner. -/
theorem locateEnsurePanner_spec (w : World) (lr : Nat) (id : String)
    (hlive : (alGet w.locmaps lr).isSome) :
    sGet (locmapOf (locateEnsurePanner w lr id).1 lr) id =
      some (locateEnsurePanner w lr id).2 ∧
    (locateEnsurePanner w lr id).1.recs = w.recs := by
  unfold locateEnsurePanner
  try dsimp only
  split
  · rename_i p hp
    exact ⟨hp, rfl⟩
  · constructor
    · rw [locmapOf_setLoc_self _ (by simpa using hlive), sGet_sSet_self]
    · rfl

/-- The first `locate` call always leaves a panner stored for the id. -/
theorem locate_spec (w : World) (r : Nat) (id : String) (x y z : Option Int)
    (opts : Option (List (String × Int))) :
    ∃ r1 p, (locate w r id x y z opts).2 = some (.ref r1) ∧
      locPanner (locate w r id x y z opts).1 r1 id = some p := by
  obtain ⟨hloc, hlive⟩ := locateEnsureMap_spec w r
  obtain ⟨hget, hrecs⟩ := locateEnsurePanner_spec
    (locateEnsureMap (cloneData w r).1 (cloneData w r).2).1
    (locateEnsureMap (cloneData w r).1 (cloneData w r).2).2 id hlive
  unfold locate
  try dsimp only
  refine ⟨(cloneData w r).2,
    (locateEnsurePanner (locateEnsureMap (cloneData w r).1 (cloneData w r).2).1
      (locateEnsureMap (cloneData w r).1 (cloneData w r).2).2 id).2, rfl, ?_⟩
  unfold locPanner
  rw [show recOf (locateOpts (emit (locateEnsurePanner
      (locateEnsureMap (cloneData w r).1 (cloneData w r).2).1
      (locateEnsureMap (cloneData w r).1 (cloneData w r).2).2 id).1
      (.setPosition _ (jsOr x 0) (jsOr y 0) (jsOr z 0))) _ opts) (cloneData w r).2 =
    recOf (locateEnsureMap (cloneData w r).1 (cloneData w r).2).1 (cloneData w r).2
    from by
      unfold recOf
      rw [show (locateOpts (emit (locateEnsurePanner
        (locateEnsureMap (cloneData w r).1 (cloneData w r).2).1
        (locateEnsureMap (cloneData w r).1 (cloneData w r).2).2 id).1
        (.setPosition _ (jsOr x 0) (jsOr y 0) (jsOr z 0))) _ opts).recs =
        (locateEnsurePanner (locateEnsureMap (cloneData w r).1 (cloneData w r).2).1
          (locateEnsureMap (cloneData w r).1 (cloneData w r).2).2 id).1.recs from by
        rw [recs_locateOpts, recs_emit]]
      rw [hrecs]]
  rw [hloc]
  show sGet (locmapOf (locateOpts _ _ opts) _) id = _
  rw [show ∀ (wa wb : World), wa.locmaps = wb.locmaps →
    ∀ k, locmapOf wa k = locmapOf wb k from fun wa wb hh k => by unfold locmapOf; rw [hh]]
  · exact hget
  · rw [locmaps_locateOpts, locmaps_emit]

/-- A `locate` call on a state that already has a panner for the identifier
returns a state holding the identical panner handle, and only emits the
position update and the option overrides onto that handle. -/
theorem locate_reuse (w : World) (r : Nat) (id : String) (x y z : Option Int)
    (opts : Option (List (String × Int))) (p : Nat) (hp : locPanner w r id = some p) :
    ∃ r2, (locate w r id x y z opts).2 = some (.ref r2) ∧
      locPanner (locate w r id x y z opts).1 r2 id = some p ∧
      (locate w r id x y z opts).1.log = w.log ++
        (.setPosition p (jsOr x 0) (jsOr y 0) (jsOr z 0) ::
          (opts.getD []).map (fun kv => .setPannerProp p kv.1 kv.2)) := by
  unfold locPanner at hp
  cases hl0 : (recOf w r).locations with
  | none => rw [hl0] at hp; cases hp
  | some l0 =>
      rw [hl0] at hp
      replace hp : sGet (locmapOf w l0) id = some p := hp
      have hs := (cloneData_spec w r).2.2.1
      rw [hl0] at hs
      cases hcl : (recOf (cloneData w r).1 (cloneData w r).2).locations with
      | none => rw [hcl] at hs; simp [OptCopy] at hs
      | some lr =>
          rw [hcl] at hs
          have hlm : locmapOf (cloneData w r).1 lr = locmapOf w l0 := by
            unfold locmapOf
            rw [show alGet (cloneData w r).1.locmaps lr =
              some (locmapOf w l0) from hs.2.2]
            rfl
          have hem : locateEnsureMap (cloneData w r).1 (cloneData w r).2 =
              ((cloneData w r).1, lr) := by
            unfold locateEnsureMap
            rw [hcl]
          have hep : locateEnsurePanner (cloneData w r).1 lr id =
              ((cloneData w r).1, p) := by
            unfold locateEnsurePanner
            rw [hlm, hp]
          unfold locate
          try dsimp only
          rw [hem]
          try dsimp only
          rw [hep]
          refine ⟨(cloneData w r).2, rfl, ?_, ?_⟩
          · unfold locPanner
            rw [show recOf (locateOpts (emit (cloneData w r).1
                (.setPosition p (jsOr x 0) (jsOr y 0) (jsOr z 0))) p opts)
                (cloneData w r).2 = recOf (cloneData w r).1 (cloneData w r).2 from by
              unfold recOf
              rw [recs_locateOpts, recs_emit]]
            rw [hcl]
            show sGet (locmapOf (locateOpts _ _ opts) lr) id = some p
            rw [show locmapOf (locateOpts (emit (cloneData w r).1
                (.setPosition p (jsOr x 0) (jsOr y 0) (jsOr z 0))) p opts) lr =
                locmapOf (cloneData w r).1 lr from by
              unfold locmapOf
              rw [locmaps_locateOpts, locmaps_emit]]
            rw [hlm, hp]
          · rw [locateOpts_log, log_emit, log_cloneData]
            simp

/-- C7: panner reuse by identity.  After a first `locate(state, id, …)`, the
returned state's `locations` entry for `id` holds some panner handle `p`; a
second `locate` on that state with the same identifier keeps the identical
handle `p`, emits exactly the position update and the option overrides onto
`p`, and creates no second panner. -/
theorem claim_C7_panner_reuse (w : World) (r : Nat) (id : String)
    (x y z : Option Int) (opts : Option (List (String × Int)))
    (x' y' z' : Option Int) (opts' : Option (List (String × Int))) :
    ∃ r1 p r2,
      (locate w r id x y z opts).2 = some (.ref r1) ∧
      locPanner (locate w r id x y z opts).1 r1 id = some p ∧
      (locate (locate w r id x y z opts).1 r1 id x' y' z' opts').2 =
        some (.ref r2) ∧
      locPanner (locate (locate w r id x y z opts).1 r1 id x' y' z' opts').1
        r2 id = some p ∧
      (locate (locate w r id x y z opts).1 r1 id x' y' z' opts').1.log =
        (locate w r id x y z opts).1.log ++
          (.setPosition p (jsOr x' 0) (jsOr y' 0) (jsOr z' 0) ::
            (opts'.getD []).map (fun kv => .setPannerProp p kv.1 kv.2)) ∧
      ∀ q, AudioAction.createPanner q ∉
        (AudioAction.setPosition p (jsOr x' 0) (jsOr y' 0) (jsOr z' 0) ::
          (opts'.getD []).map (fun kv => .setPannerProp p kv.1 kv.2)) := by
  obtain ⟨r1, p, h1, h2⟩ := locate_spec w r id x y z opts
  obtain ⟨r2, h3, h4, h5⟩ :=
    locate_reuse (locate w r id x y z opts).1 r1 id x' y' z' opts' p h2
  refine ⟨r1, p, r2, h1, h2, h3, h4, h5, ?_⟩
  intro q hq
  rcases List.mem_cons.mp hq with h | h
  · cases h
  · obtain ⟨kv, _, hkv⟩ := List.mem_map.mp h
    cases hkv

/-- C8: (1) after `removeSound(state, id)`, the mapping returned by
`getAudioBuffers` on the result has no entry for `id`; (2) on a state whose
buffer-table reference is live, two successive `getAudioBuffers` calls
return two distinct mapping objects with equal contents. -/
theorem claim_C8_copy_semantics :
    (∀ (w : World) (r : Nat) (id : String), ∃ r1 t,
      (removeSound w r id).2 = some (.ref r1) ∧
      (getAudioBuffers (removeSound w r id).1 r1).2 = some (.table t) ∧
      sGet (tableOf (getAudioBuffers (removeSound w r id).1 r1).1 t) id = none) ∧
    (∀ (w : World) (r : Nat),
      (∀ tb, (recOf w r).audioBuffers = some tb → tb < w.nextRef) →
      ∃ t1 t2,
        (getAudioBuffers w r).2 = some (.table t1) ∧
        (getAudioBuffers (getAudioBuffers w r).1 r).2 = some (.table t2) ∧
        t1 ≠ t2 ∧
        tableOf (getAudioBuffers (getAudioBuffers w r).1 r).1 t1 =
          tableOf (getAudioBuffers (getAudioBuffers w r).1 r).1 t2) := by
  constructor
  · intro w r id
    unfold removeSound
    try dsimp only
    cases hab : (recOf (cloneData w r).1 (cloneData w r).2).audioBuffers with
    | none =>
        obtain ⟨t, h1, _, _, hnone, _, _, _⟩ :=
          getAudioBuffers_spec (cloneData w r).1 (cloneData w r).2
        exact ⟨(cloneData w r).2, t, rfl, h1, by rw [hnone hab]; rfl⟩
    | some tb =>
        obtain ⟨t0, ht0, htlo, hthi, hlive⟩ := cloneData_table_copy hab
        obtain ⟨t, h1, _, _, _, hsome, _, _⟩ := getAudioBuffers_spec
          (setTable (cloneData w r).1 tb (sDel (tableOf (cloneData w r).1 tb) id))
          (cloneData w r).2
        refine ⟨(cloneData w r).2, t, rfl, h1, ?_⟩
        rw [hsome tb hab (by simpa using hthi)]
        rw [tableOf_setTable_self _ (by rw [show alGet (cloneData w r).1.tables tb =
          some (tableOf w t0) from hlive]; rfl)]
        exact sGet_sDel_self _ id
  · intro w r hwf
    obtain ⟨t1, h11, h12, h13, hnone1, hsome1, hold1, hrecs1⟩ := getAudioBuffers_spec w r
    obtain ⟨t2, h21, h22, _, hnone2, hsome2, hold2, _⟩ :=
      getAudioBuffers_spec (getAudioBuffers w r).1 r
    refine ⟨t1, t2, h11, h21, Nat.ne_of_lt (lt_of_lt_of_le h13 h22), ?_⟩
    have hrec : recOf (getAudioBuffers w r).1 r = recOf w r := by
      unfold recOf; rw [hrecs1]
    cases hab : (recOf w r).audioBuffers with
    | none =>
        rw [hnone2 (by rw [hrec]; exact hab), hold2 t1 h13, hnone1 hab]
    | some tb =>
        have hlt : tb < w.nextRef := hwf tb hab
        rw [hsome2 tb (by rw [hrec]; exact hab)
          (lt_of_lt_of_le hlt (le_trans h12 (le_of_lt h13)))]
        rw [hold2 t1 h13, hsome1 tb hab hlt, hold1 tb hlt]

/-- Witness for C8 on the concrete state with table `x ↦ pending`. -/
theorem claim_C8_copy_semantics_witness :
    ∃ t1 t2,
      (getAudioBuffers wPend 0).2 = some (.table t1) ∧
      (getAudioBuffers (getAudioBuffers wPend 0).1 0).2 = some (.table t2) ∧
      t1 ≠ t2 ∧
      tableOf (getAudioBuffers (getAudioBuffers wPend 0).1 0).1 t1 =
        tableOf (getAudioBuffers (getAudioBuffers wPend 0).1 0).1 t2 :=
  claim_C8_copy_semantics.2 wPend 0 (by decide)

/-- C4 (failing input for the code bug): starting from the empty state —
no `audioBuffers` field — `addSound` throws (`cloneData` yields a record
without `audioBuffers`, and the write `audioBuffers[id] = 'pending'` is a
property assignment on `undefined`), instead of mapping the identifier to
`pending` as the spec's end-to-end example requires; the sibling `sounds`
operation guards this very case with a fresh table. -/
theorem claim_C4_addSound_throws_on_empty_state :
    (applyOp wEx 0 (.addSound "ping" "data:audio/wav;base64,AAAA")).2 = none ∧
    (applyOp wEx 0 (.sounds [("ping", "data:audio/wav;base64,AAAA")])).2 =
      some (.ref 1) ∧
    bufferOf (applyOp wEx 0 (.sounds [("ping", "data:audio/wav;base64,AAAA")])).1
      1 "ping" = some .pending ∧
    (applyOp wEx 0 (.sounds [("ping", "data:audio/wav;base64,AAAA")])).1.pend =
      [⟨2, "ping", "AAAA"⟩] ∧
    bufferOf (fireDecode
      (applyOp wEx 0 (.sounds [("ping", "data:audio/wav;base64,AAAA")])).1
      ⟨2, "ping", "AAAA"⟩ (.ok 42)) 1 "ping" = some (.handle 42) ∧
    (play (fireDecode
      (applyOp wEx 0 (.sounds [("ping", "data:audio/wav;base64,AAAA")])).1
      ⟨2, "ping", "AAAA"⟩ (.ok 42)) 1 "ping" none).1.log =
      [.createGain 0 1, .connectDest 0, .createBufferSource 1, .setBuffer 1 42,
       .connect 1 0, .start 1 0] := by
  refine ⟨rfl, rfl, by decide, by decide, by decide, by decide⟩

end AudioM
